import Mathlib

/-!
Verification of the AST-to-IR lowering core of the Crubit
rs_bindings_from_cc tool, as implemented in
rs_bindings_from_cc/ast_visitor.cc.

The development shallowly embeds the code: clang-supplied facts about a
declaration or a type (spellings, widths, access, layout offsets, target
ownership) appear as fields of the Lean records, and the control flow of
the visitor functions is translated directly from the C++ source.
Definitions whose doc comment starts with the words Modelled from the
spec stand for code of the repository that is declared in headers
(ir.h, ast_visitor.h) not present here; they follow the specification
text for those parts.
-/

namespace Crubit

/-- Character 39, used to build the single-quoted fragments of the
diagnostic messages of the source without writing a quote character. -/
def sq : String := String.singleton (Char.ofNat 39)

/-- Access specifiers as clang reports them (AS_public, AS_protected,
AS_private, AS_none). -/
inductive AccessSpec where
| pub
| protectedA
| priv
| noAccess
deriving DecidableEq, Repr

/-- Builtin type kinds distinguished by AstVisitor::ConvertType.
Integer builtins carry their spelling, signedness and bit width
(clang ASTContext::getTypeSize); kinds the switch does not handle and
that are not integers are collected in otherB. -/
inductive BuiltinKind where
| boolK
| floatK
| doubleK
| voidK
| integer (spelling : String) (signed : Bool) (width : Nat)
| otherB (spelling : String)
deriving DecidableEq, Repr

/-- A qualified C++ type as ConvertType inspects it: one constructor per
branch of the dispatch (PointerType, LValueReferenceType, BuiltinType,
TagType, TypedefType).  Each node carries its const-qualification and,
where clang would supply one, its printed spelling.  Tag nodes carry the
canonical declaration id, the translated identifier (none when the
declaration has no usable name), whether the tag is a RecordType, and
the ABI canPassInRegisters verdict used by VisitFunctionDecl. -/
inductive CType where
| pointer (isConst : Bool) (spelling : String) (pointee : CType)
| lvalueRef (isConst : Bool) (spelling : String) (pointee : CType)
| builtin (isConst : Bool) (k : BuiltinKind)
| tagType (isConst : Bool) (spelling : String) (declId : Nat) (ident : Option String)
    (isRecordType : Bool) (passable : Bool)
| typedefType (isConst : Bool) (spelling : String) (declId : Nat) (ident : Option String)
deriving DecidableEq, Repr

/-- Spelling of the unqualified type, as
qual_type.getUnqualifiedType().getAsString() produces it. -/
def CType.spellingOf : CType → String
| .pointer _ s _ => s
| .lvalueRef _ s _ => s
| .builtin _ .boolK => "bool"
| .builtin _ .floatK => "float"
| .builtin _ .doubleK => "double"
| .builtin _ .voidK => "void"
| .builtin _ (.integer s _ _) => s
| .builtin _ (.otherB s) => s
| .tagType _ s _ _ _ _ => s
| .typedefType _ s _ _ => s

/-- Const-qualification of the type (clang isConstQualified). -/
def CType.isConstOf : CType → Bool
| .pointer c _ _ => c
| .lvalueRef c _ _ => c
| .builtin c _ => c
| .tagType c _ _ _ _ _ => c
| .typedefType c _ _ _ => c

/-- Qualified spelling, as QualType::getAsString prints it in the
diagnostic messages of VisitFunctionDecl and ImportFields. -/
def CType.asFullString (q : CType) : String :=
  if q.isConstOf then "const " ++ q.spellingOf else q.spellingOf

/-- The kWellKnownTypes table of ast_visitor.cc: C++ standard type
spellings mapped directly to their Rust equivalents. -/
def kWellKnownTypes : List (String × String) :=
  [("ptrdiff_t", "isize"),
   ("intptr_t", "isize"),
   ("size_t", "usize"),
   ("uintptr_t", "usize"),
   ("std::ptrdiff_t", "isize"),
   ("std::intptr_t", "isize"),
   ("std::size_t", "usize"),
   ("std::uintptr_t", "usize"),
   ("int8_t", "i8"),
   ("int16_t", "i16"),
   ("int32_t", "i32"),
   ("int64_t", "i64"),
   ("std::int8_t", "i8"),
   ("std::int16_t", "i16"),
   ("std::int32_t", "i32"),
   ("std::int64_t", "i64"),
   ("uint8_t", "u8"),
   ("uint16_t", "u16"),
   ("uint32_t", "u32"),
   ("uint64_t", "u64"),
   ("std::uint8_t", "u8"),
   ("std::uint16_t", "u16"),
   ("std::uint32_t", "u32"),
   ("std::uint64_t", "u64"),
   ("char16_t", "u16"),
   ("char32_t", "u32"),
   ("wchar_t", "i32")]

/-- Rust side of a mapped type.  Modelled from the spec: the RsType
record lives in ir.h, which is not part of the sources here.  Per the
data model it has a name, type parameters and an optional declaration
id; following the type-mapper section, a pointer or reference layer also
records the lifetime id popped for it and, for pointers, whether the
layer is nullable. -/
inductive RsType where
| mk (name : String) (type_params : List RsType) (decl_id : Option Nat)
    (lifetime : Option Nat) (nullable : Bool)

/-- C++ side of a mapped type.  Modelled from the spec: the CcType
record lives in ir.h; it has a name, a const flag, type parameters and
an optional declaration id. -/
inductive CcType where
| mk (name : String) (is_const : Bool) (type_params : List CcType) (decl_id : Option Nat)

/-- Name of an RsType node. -/
def RsType.name : RsType → String
| .mk n _ _ _ _ => n

/-- Type parameters of an RsType node. -/
def RsType.type_params : RsType → List RsType
| .mk _ ps _ _ _ => ps

/-- Declaration id of an RsType node. -/
def RsType.decl_id : RsType → Option Nat
| .mk _ _ d _ _ => d

/-- Lifetime id recorded on an RsType pointer or reference node. -/
def RsType.lifetime : RsType → Option Nat
| .mk _ _ _ l _ => l

/-- Nullability recorded on an RsType pointer node. -/
def RsType.nullable : RsType → Bool
| .mk _ _ _ _ b => b

/-- Name of a CcType node. -/
def CcType.name : CcType → String
| .mk n _ _ _ => n

/-- Const flag of a CcType node. -/
def CcType.is_const : CcType → Bool
| .mk _ c _ _ => c

/-- Type parameters of a CcType node. -/
def CcType.type_params : CcType → List CcType
| .mk _ _ ps _ => ps

/-- Declaration id of a CcType node. -/
def CcType.decl_id : CcType → Option Nat
| .mk _ _ _ d => d

/-- A dual-sided mapped type: the C++ side and the Rust side in
lockstep. -/
structure MappedType where
  cc_type : CcType
  rs_type : RsType

/-- Modelled from the spec: MappedType::Simple of ir.h builds a
non-parameterised type with the given Rust-side and C++-side names. -/
def MappedType.Simple (rsName ccName : String) : MappedType :=
  ⟨.mk ccName false [] none, .mk rsName [] none none true⟩

/-- Modelled from the spec: MappedType::Void of ir.h, the mapped form of
the C++ void type. -/
def MappedType.Void : MappedType := MappedType.Simple "()" "void"

/-- Modelled from the spec: MappedType::WithDeclIds of ir.h builds a
reference to an imported declaration, carrying the declaration id on
both sides. -/
def MappedType.WithDeclIds (rsName : String) (rsId : Nat) (ccName : String) (ccId : Nat) :
    MappedType :=
  ⟨.mk ccName false [] (some ccId), .mk rsName [] (some rsId) none true⟩

/-- Modelled from the spec: MappedType::PointerTo of ir.h wraps a
pointee as one pointer layer; the C++ side is a star with a single type
parameter, the Rust side a raw pointer name chosen by the constness of
the pointee, recording this layer's lifetime id and nullability. -/
def MappedType.PointerTo (pointee : MappedType) (lifetime : Option Nat) (nullable : Bool) :
    MappedType :=
  ⟨.mk "*" false [pointee.cc_type] none,
   .mk (if pointee.cc_type.is_const then "*const" else "*mut") [pointee.rs_type] none
     lifetime nullable⟩

/-- Modelled from the spec: MappedType::LValueReferenceTo of ir.h wraps
a pointee as one reference layer; references are non-nullable by
contract. -/
def MappedType.LValueReferenceTo (pointee : MappedType) (lifetime : Option Nat) : MappedType :=
  ⟨.mk "&" false [pointee.cc_type] none,
   .mk (if pointee.cc_type.is_const then "&" else "&mut") [pointee.rs_type] none
     lifetime false⟩

/-- Propagation of const-qualification into the cc side only, as done at
the end of ConvertType. -/
def MappedType.setConst (b : Bool) (t : MappedType) : MappedType :=
  ⟨.mk t.cc_type.name b t.cc_type.type_params t.cc_type.decl_id, t.rs_type⟩

/-- Modelled from the spec: the default value of the nullable parameter
of AstVisitor::ConvertType is declared in ast_visitor.h, which is not
part of the sources here; per the type-mapper section the recursive
conversions of a pointee, which rely on that default, are
non-nullable. -/
def ccNullableDefault : Bool := false

/-- The error message ConvertType builds from the unqualified type
spelling when no branch produced a mapped type. -/
def unsupportedTypeMsg (ts : String) : String :=
  "Unsupported type " ++ sq ++ ts ++ sq

/-- Outcome of ConvertType: a mapped type, an absl error message, or a
CHECK failure aborting the process. -/
inductive ConvResult where
| ok (t : MappedType)
| err (msg : String)
| checkFail

/-- AstVisitor::ConvertType.  The well-known table is consulted first on
the unqualified spelling; pointer and lvalue-reference layers pop one
lifetime id from the back of the stack (a CHECK aborts when the stack is
present but empty) and recurse on the pointee with the popped stack;
builtins map by kind, integer builtins by signedness and width
8/16/32/64; tag and typedef types resolve through known type
declarations; everything else is an unsupported-type error carrying the
unqualified spelling.  Const-qualification is copied onto the cc side of
a successful result. -/
def convertType (known : List Nat) : CType → Option (List Nat) → Bool → ConvResult
| q, lifetimes, nullable =>
  let ts := q.spellingOf
  match kWellKnownTypes.lookup ts with
  | some rsName => .ok (MappedType.setConst q.isConstOf (MappedType.Simple rsName ts))
  | none =>
    match q with
    | .pointer c _ pointee =>
      match lifetimes with
      | some ls =>
        if h : ls = [] then .checkFail
        else
          match convertType known pointee (some ls.dropLast) ccNullableDefault with
          | .ok p => .ok (MappedType.setConst c (MappedType.PointerTo p (some (ls.getLast h)) nullable))
          | .checkFail => .checkFail
          | .err _ => .err (unsupportedTypeMsg ts)
      | none =>
        match convertType known pointee none ccNullableDefault with
        | .ok p => .ok (MappedType.setConst c (MappedType.PointerTo p none nullable))
        | .checkFail => .checkFail
        | .err _ => .err (unsupportedTypeMsg ts)
    | .lvalueRef c _ pointee =>
      match lifetimes with
      | some ls =>
        if h : ls = [] then .checkFail
        else
          match convertType known pointee (some ls.dropLast) ccNullableDefault with
          | .ok p => .ok (MappedType.setConst c (MappedType.LValueReferenceTo p (some (ls.getLast h))))
          | .checkFail => .checkFail
          | .err _ => .err (unsupportedTypeMsg ts)
      | none =>
        match convertType known pointee none ccNullableDefault with
        | .ok p => .ok (MappedType.setConst c (MappedType.LValueReferenceTo p none))
        | .checkFail => .checkFail
        | .err _ => .err (unsupportedTypeMsg ts)
    | .builtin c k =>
      match k with
      | .boolK => .ok (MappedType.setConst c (MappedType.Simple "bool" "bool"))
      | .floatK => .ok (MappedType.setConst c (MappedType.Simple "f32" "float"))
      | .doubleK => .ok (MappedType.setConst c (MappedType.Simple "f64" "double"))
      | .voidK => .ok (MappedType.setConst c MappedType.Void)
      | .integer _ signed width =>
        if width = 8 ∨ width = 16 ∨ width = 32 ∨ width = 64 then
          .ok (MappedType.setConst c
            (MappedType.Simple ((if signed then "i" else "u") ++ toString width) ts))
        else .err (unsupportedTypeMsg ts)
      | .otherB _ => .err (unsupportedTypeMsg ts)
    | .tagType c _ declId ident _ _ =>
      if declId ∈ known then
        match ident with
        | some nm => .ok (MappedType.setConst c (MappedType.WithDeclIds nm declId nm declId))
        | none => .err (unsupportedTypeMsg ts)
      else .err (unsupportedTypeMsg ts)
    | .typedefType c _ declId ident =>
      if declId ∈ known then
        match ident with
        | some nm => .ok (MappedType.setConst c (MappedType.WithDeclIds nm declId nm declId))
        | none => .err (unsupportedTypeMsg ts)
      else .err (unsupportedTypeMsg ts)

/-- Number of pointer or lvalue-reference layers ConvertType peels for a
type: none when the well-known table short-circuits, otherwise one per
wrapper layer. -/
def numLayers (q : CType) : Nat :=
  if (kWellKnownTypes.lookup q.spellingOf).isSome then 0
  else
    match q with
    | .pointer _ _ p => numLayers p + 1
    | .lvalueRef _ _ p => numLayers p + 1
    | _ => 0

/-- Rust-side names marking a pointer or reference wrapper layer. -/
def rsWrapperNames : List String := ["*mut", "*const", "&", "&mut"]

/-- The chain of pointer and reference wrapper nodes of a Rust-side
type, outermost first.  A wrapper node has a wrapper name, no
declaration id and a single type parameter. -/
def rsSpine : RsType → List RsType
| .mk n [p] none l nb =>
  if n ∈ rsWrapperNames then .mk n [p] none l nb :: rsSpine p else []
| _ => []

/-- Whether a C++-side name marks a pointer or reference wrapper. -/
def ccIsWrapperName (n : String) : Bool := n = "*" ∨ n = "&"

/-- Whether a Rust-side name marks a pointer or reference wrapper. -/
def rsIsWrapperName (n : String) : Bool := n ∈ rsWrapperNames

mutual
/-- Structural parallelism of the two sides of a mapped type: equal
type-parameter arity, declaration ids set together or not at all,
wrapper status in lockstep with a single pointee, children parallel. -/
def parallelB : CcType → RsType → Bool
| .mk cn _ cps cd, .mk rn rps rd _ _ =>
  (cps.length == rps.length)
  && (cd.isSome == rd.isSome)
  && (ccIsWrapperName cn == rsIsWrapperName rn)
  && (!ccIsWrapperName cn || cps.length == 1)
  && parallelListB cps rps
/-- Pointwise structural parallelism of two type-parameter lists. -/
def parallelListB : List CcType → List RsType → Bool
| [], [] => true
| c :: cs, r :: rs => parallelB c r && parallelListB cs rs
| _, _ => false
end

/-- Well-formedness of the clang-supplied names in a type tree: a
translated identifier or an integer builtin spelling is a C++ name, so
it is never one of the pointer or reference wrapper names. -/
def identsOk : CType → Bool
| .pointer _ _ p => identsOk p
| .lvalueRef _ _ p => identsOk p
| .builtin _ (BuiltinKind.integer s _ _) => decide (s ∉ rsWrapperNames ∧ s ≠ "*" ∧ s ≠ "&")
| .builtin _ _ => true
| .tagType _ _ _ ident _ _ =>
  match ident with
  | some s => decide (s ∉ rsWrapperNames ∧ s ≠ "*" ∧ s ≠ "&")
  | none => true
| .typedefType _ _ _ ident =>
  match ident with
  | some s => decide (s ∉ rsWrapperNames ∧ s ≠ "*" ∧ s ≠ "&")
  | none => true

end Crubit

namespace Crubit

/-- An unqualified translated name: an ordinary identifier or the
constructor or destructor sentinel. -/
inductive UnqualifiedIdentifier where
| ident (s : String)
| ctorId
| dtorId

/-- A translated function parameter: mapped type plus identifier. -/
structure FuncParam where
  type : MappedType
  identifier : String

/-- Reference qualification of an instance method. -/
inductive RefQual where
| lvalue
| rvalue
| unqualified
deriving DecidableEq, Repr

/-- Metadata of an instance method. -/
structure InstanceMeta where
  reference : RefQual
  isConstMethod : Bool
  isVirtual : Bool

/-- Metadata of a member function: the record it belongs to and, for
instance methods, the instance metadata. -/
structure MemberFuncMetadata where
  recordId : Nat
  instanceMeta : Option InstanceMeta

/-- The Func IR item.  The mangled name, owning target, doc comment and
inline flag are clang- or mangler-supplied facts carried through from
the declaration; lifetime-parameter bookkeeping (resolved names of the
collected lifetimes) is external to the visits modelled here and is
omitted. -/
structure FuncIR where
  name : UnqualifiedIdentifier
  owningTarget : String
  docComment : Option String
  mangledName : String
  returnType : MappedType
  params : List FuncParam
  isInline : Bool
  memberMeta : Option MemberFuncMetadata
  sourceLoc : Option Nat

/-- Definition status of a special member function. -/
inductive SpecialDef where
| trivialDef
| nontrivialDef
| deletedDef
deriving DecidableEq, Repr

/-- A special member function fact: definition status and access. -/
structure SpecialMemberFunc where
  definition : SpecialDef
  access : AccessSpec

/-- A translated record field. -/
structure FieldIR where
  identifier : String
  docComment : Option String
  type : MappedType
  access : AccessSpec
  offset : Nat

/-- The Record IR item. -/
structure RecordIR where
  identifier : String
  id : Nat
  owningTarget : String
  docComment : Option String
  fields : List FieldIR
  size : Nat
  alignment : Nat
  copyConstructor : SpecialMemberFunc
  moveConstructor : SpecialMemberFunc
  destructor : SpecialMemberFunc
  isTrivialAbi : Bool
  isFinal : Bool

/-- The TypeAlias IR item. -/
structure TypeAliasIR where
  identifier : String
  id : Nat
  owningTarget : String
  underlyingType : MappedType

/-- An IR item: the tagged union Func, Record, TypeAlias, Comment,
UnsupportedItem. -/
inductive Item where
| func (f : FuncIR)
| record (r : RecordIR)
| typeAlias (t : TypeAliasIR)
| commentItem (text : String)
| unsupported (name : String) (message : String) (sourceLoc : Option Nat)

/-- Whether an item is a Func, Record or TypeAlias. -/
def Item.isMajor : Item → Bool
| .func _ => true
| .record _ => true
| .typeAlias _ => true
| _ => false

/-- Whether an item is a Func. -/
def Item.isFuncItem : Item → Bool
| .func _ => true
| _ => false

/-- Whether an item is a Record. -/
def Item.isRecordItem : Item → Bool
| .record _ => true
| _ => false

/-- Whether an item is an UnsupportedItem. -/
def Item.isUnsupportedItem : Item → Bool
| .unsupported _ _ _ => true
| _ => false

/-- Traversal state of the visitor: the seen_decls_ map from canonical
declaration ids to the items registered for them, the known_type_decls_
set, and the trail of declarations handed to the comment manager. -/
structure VState where
  seenDecls : List (Nat × List Item)
  known : List Nat
  commentTrail : List Nat

/-- Items registered under a canonical declaration id. -/
def bucketOf (m : List (Nat × List Item)) (c : Nat) : List Item :=
  (m.lookup c).getD []

/-- Whether seen_decls_ contains the canonical declaration id. -/
def containsKey (m : List (Nat × List Item)) (c : Nat) : Bool :=
  (m.lookup c).isSome

/-- Appending items to the bucket of a canonical declaration id.  An
empty batch leaves the map untouched, matching that operator indexing of
seen_decls_ only runs when an item is pushed; a first push creates the
entry. -/
def appendBucket : List (Nat × List Item) → Nat → List Item → List (Nat × List Item)
| m, c, its =>
  if its.isEmpty then m
  else
    match m with
    | [] => [(c, its)]
    | e :: m1 => if e.1 = c then (e.1, e.2 ++ its) :: m1 else e :: appendBucket m1 c its

/-- AstVisitor::PushUnsupportedItem: registers an UnsupportedItem under
the canonical declaration, but only when the declaration is from the
current target. -/
def pushUnsupported (s : VState) (canonicalId : Nat) (qualifiedName : String)
    (message : String) (loc : Option Nat) (fromCurrentTarget : Bool) : VState :=
  let batch : List Item :=
    if fromCurrentTarget then [.unsupported qualifiedName message loc] else []
  { s with seenDecls := appendBucket s.seenDecls canonicalId batch }

/-- Insertion into the known_type_decls_ set. -/
def insertKnown (c : Nat) (l : List Nat) : List Nat :=
  if c ∈ l then l else l ++ [c]

/-- Erasure from the known_type_decls_ set. -/
def eraseKnown (c : Nat) (l : List Nat) : List Nat :=
  l.filter (fun x => x ≠ c)

/-- Rendering of an absl::Status as PushUnsupportedItem receives it from
status().ToString() for an unimplemented-type error. -/
def statusToString (msg : String) : String := "UNIMPLEMENTED: " ++ msg

/-- Lifetime annotations of a function as GetLifetimeAnnotations
produces them: one lifetime stack for this, one per parameter, one for
the return type. -/
structure FunctionLifetimes where
  thisLifetimes : List Nat
  paramLifetimes : List (List Nat)
  returnLifetimes : List Nat

/-- Clang facts about a method declaration. -/
structure MethodInfo where
  access : AccessSpec
  isInstance : Bool
  thisType : CType
  refQual : RefQual
  isConstMethod : Bool
  isVirtual : Bool
  parentRecordId : Nat

/-- Clang facts about one function parameter. -/
structure ParamInfo where
  type : CType
  name : String
  beginLoc : Option Nat

/-- Declaration name kinds distinguished by GetTranslatedName. -/
inductive NameKind where
| identKind (s : String)
| ctorKind
| dtorKind
| otherKind
deriving DecidableEq, Repr

/-- Clang facts about a function declaration. -/
structure FunctionDeclInfo where
  canonicalId : Nat
  qualifiedName : String
  fromCurrentTarget : Bool
  isDeleted : Bool
  nameKind : NameKind
  method : Option MethodInfo
  params : List ParamInfo
  returnType : CType
  returnLoc : Option Nat
  lifetimes : Option FunctionLifetimes
  isInline : Bool
  mangledName : String
  docComment : Option String
  owningTarget : String
  beginLoc : Option Nat
  ctxNamespace : Bool

/-- AstVisitor::GetTranslatedName restricted to function declarations:
ordinary identifiers pass through unless empty, constructors and
destructors map to sentinels, all other name kinds (operators,
conversion functions) yield no value. -/
def getTranslatedName : NameKind → Option UnqualifiedIdentifier
| .identKind s => if s = "" then none else some (.ident s)
| .ctorKind => some .ctorId
| .dtorKind => some .dtorId
| .otherKind => none

/-- Synthesised parameter identifier: an unnamed parameter at index i
becomes the synthetic name with that index. -/
def paramIdentifier (name : String) (i : Nat) : String :=
  if name = "" then "__param_" ++ toString i else name

/-- The implicit this-parameter step of VisitFunctionDecl: for an
instance method, convert the this type (non-nullable) with the this
lifetimes; a conversion error pushes an UnsupportedItem rendering the
status; a CHECK abort propagates as none.  Result: items pushed,
parameters collected, success flag. -/
def thisParamStep (known : List Nat) (f : FunctionDeclInfo) :
    Option (List Item × List FuncParam × Bool) :=
  match f.method with
  | some m =>
    if m.isInstance then
      match convertType known m.thisType (f.lifetimes.map FunctionLifetimes.thisLifetimes) false with
      | .checkFail => none
      | .err e => some ([.unsupported f.qualifiedName (statusToString e) f.beginLoc], [], false)
      | .ok t => some ([], [⟨t, "__this"⟩], true)
    else some ([], [], true)
  | none => some ([], [], true)

/-- The lifetime stack of the parameter at the given index, when
lifetime annotations are present. -/
def paramLifetimesAt (lf : Option FunctionLifetimes) (i : Nat) : Option (List Nat) :=
  lf.map (fun l => l.paramLifetimes.getD i [])

/-- The register-passability verdict of a parameter or return type: a
RecordType used by value whose record cannot pass in registers is
rejected. -/
def byValuePassOk : CType → Bool
| .tagType _ _ _ _ true passable => passable
| _ => true

/-- The parameter loop of VisitFunctionDecl: each parameter type is
converted with its per-parameter lifetimes; an error pushes an
UnsupportedItem and skips the parameter; a by-value record that cannot
pass in registers pushes an UnsupportedItem but still collects the
parameter; parameter names are synthesised when empty. -/
def paramsStep (known : List Nat) (lf : Option FunctionLifetimes) (qualifiedName : String) :
    List ParamInfo → Nat → Option (List Item × List FuncParam × Bool)
| [], _ => some ([], [], true)
| p :: rest, i =>
  match convertType known p.type (paramLifetimesAt lf i) ccNullableDefault with
  | .checkFail => none
  | .err _ =>
    (paramsStep known lf qualifiedName rest (i + 1)).map
      (fun r =>
        (.unsupported qualifiedName
            ("Parameter type " ++ sq ++ p.type.asFullString ++ sq ++ " is not supported")
            p.beginLoc :: r.1,
          r.2.1, false))
  | .ok t =>
    let regItems : List Item :=
      if byValuePassOk p.type then []
      else
        [.unsupported qualifiedName
          ("Non-trivial_abi type " ++ sq ++ p.type.asFullString ++ sq
            ++ " is not supported by value as a parameter")
          p.beginLoc]
    (paramsStep known lf qualifiedName rest (i + 1)).map
      (fun r =>
        (regItems ++ r.1,
          ⟨t, paramIdentifier p.name i⟩ :: r.2.1,
          (byValuePassOk p.type) && r.2.2))

/-- The return-type register check of VisitFunctionDecl. -/
def returnRecordCheck (f : FunctionDeclInfo) : List Item × Bool :=
  if byValuePassOk f.returnType then ([], true)
  else
    ([.unsupported f.qualifiedName
        ("Non-trivial_abi type " ++ sq ++ f.returnType.asFullString ++ sq
          ++ " is not supported by value as a return type")
        f.returnLoc],
      false)

/-- The return-type conversion step of VisitFunctionDecl. -/
def returnConvStep (known : List Nat) (f : FunctionDeclInfo) :
    Option (List Item × Option MappedType) :=
  match convertType known f.returnType (f.lifetimes.map FunctionLifetimes.returnLifetimes)
      ccNullableDefault with
  | .checkFail => none
  | .err _ =>
    some ([.unsupported f.qualifiedName
        ("Return type " ++ sq ++ f.returnType.asFullString ++ sq ++ " is not supported")
        f.returnLoc],
      none)
  | .ok t => some ([], some t)

/-- Whether the CHECK_EQ tying the number of per-parameter lifetime
stacks to the number of parameters holds. -/
def lifetimesCountOk (f : FunctionDeclInfo) : Bool :=
  match f.lifetimes with
  | some l => l.paramLifetimes.length == f.params.length
  | none => true

/-- The member metadata VisitFunctionDecl attaches for methods. -/
def memberMetaOf (f : FunctionDeclInfo) : Option MemberFuncMetadata :=
  f.method.map (fun m =>
    ⟨m.parentRecordId,
      if m.isInstance then some ⟨m.refQual, m.isConstMethod, m.isVirtual⟩ else none⟩)

/-- The items AstVisitor::VisitFunctionDecl registers for a function
from the current target that is not deleted, in push order: this-param
failure, per-parameter failures, return-type register failure,
return-type conversion failure, then — only when the method is public
or free, every step succeeded and the name translates — the Func item.
The result is none when a CHECK aborts. -/
def functionDeclItems (known : List Nat) (f : FunctionDeclInfo) : Option (List Item) :=
  match thisParamStep known f with
  | none => none
  | some (items0, params0, ok0) =>
    if lifetimesCountOk f then
      match paramsStep known f.lifetimes f.qualifiedName f.params 0 with
      | none => none
      | some (items1, params1, ok1) =>
        let rc := returnRecordCheck f
        match returnConvStep known f with
        | none => none
        | some (items3, rtOpt) =>
          let base := items0 ++ items1 ++ rc.1 ++ items3
          let nonPublic : Bool :=
            match f.method with
            | some m => m.access != AccessSpec.pub
            | none => false
          if nonPublic then some base
          else
            match rtOpt, getTranslatedName f.nameKind with
            | some rt, some nm =>
              if ok0 && ok1 && rc.2 then
                some (base ++
                  [.func ⟨nm, f.owningTarget, f.docComment, f.mangledName, rt,
                    params0 ++ params1, f.isInline, memberMetaOf f, f.beginLoc⟩])
              else some base
            | _, _ => some base
    else none

/-- AstVisitor::VisitFunctionDecl: skips declarations not from the
current target and deleted functions, otherwise registers the computed
items under the canonical declaration id. -/
def visitFunctionDecl (s : VState) (f : FunctionDeclInfo) : Option VState :=
  if !f.fromCurrentTarget then some s
  else if f.isDeleted then some s
  else
    (functionDeclItems s.known f).map
      (fun its => { s with seenDecls := appendBucket s.seenDecls f.canonicalId its })

end Crubit

namespace Crubit

/-- Clang facts about one record field. -/
structure FieldInfo where
  type : CType
  name : String
  access : AccessSpec
  docComment : Option String
  offset : Nat
  beginLoc : Option Nat

/-- Clang facts about a record declaration.  The special member
classifications come from ast_convert, which is external to this
translation unit. -/
structure RecordDeclInfo where
  canonicalId : Nat
  declId : Nat
  qualifiedName : String
  fromCurrentTarget : Bool
  ctxFunctionOrMethod : Bool
  ctxRecord : Bool
  isUnion : Bool
  hasCompleteDefinition : Bool
  isCxx : Bool
  isClassTemplateOrSpec : Bool
  isClass : Bool
  effectivelyFinal : Bool
  name : String
  fields : List FieldInfo
  size : Nat
  alignment : Nat
  copyCtor : SpecialMemberFunc
  moveCtor : SpecialMemberFunc
  dtor : SpecialMemberFunc
  canPassInRegisters : Bool
  docComment : Option String
  owningTarget : String
  beginLoc : Option Nat
  ctxNamespace : Bool

/-- Outcome of ImportFields: the translated fields, or the
UnsupportedItem message and location of the first failure, or a CHECK
abort. -/
inductive FieldsOutcome where
| fieldsOk (fs : List FieldIR)
| failed (msg : String) (loc : Option Nat)
| abortOutcome

/-- AstVisitor::ImportFields: each field type is converted (without
lifetimes); a conversion failure or an untranslatable field name aborts
the import with the corresponding diagnostic; an unspecified access
resolves to the record's default access; offsets come from the record
layout. -/
def importFieldsAux (known : List Nat) (defaultAccess : AccessSpec) :
    List FieldInfo → FieldsOutcome
| [] => .fieldsOk []
| fd :: rest =>
  match convertType known fd.type none ccNullableDefault with
  | .checkFail => .abortOutcome
  | .err _ =>
    .failed ("Field type " ++ sq ++ fd.type.asFullString ++ sq ++ " is not supported")
      fd.beginLoc
  | .ok t =>
    let access := if fd.access = AccessSpec.noAccess then defaultAccess else fd.access
    if fd.name = "" then
      .failed ("Cannot translate name for field " ++ sq ++ fd.name ++ sq) fd.beginLoc
    else
      match importFieldsAux known defaultAccess rest with
      | .fieldsOk fs => .fieldsOk (⟨fd.name, fd.docComment, t, access, fd.offset⟩ :: fs)
      | r => r

/-- The default access of a record: private for C++ classes, public
otherwise. -/
def recordDefaultAccess (r : RecordDeclInfo) : AccessSpec :=
  if r.isCxx && r.isClass then AccessSpec.priv else AccessSpec.pub

/-- The is_final flag of a record: effectively-final for C++ records,
true for plain C records (the initial value in the source). -/
def recordIsFinal (r : RecordDeclInfo) : Bool :=
  if r.isCxx then r.effectivelyFinal else true

/-- The Record IR item built on a successful import. -/
def mkRecordItem (r : RecordDeclInfo) (nm : String) (fs : List FieldIR) : Item :=
  .record ⟨nm, r.declId, r.owningTarget, r.docComment, fs, r.size, r.alignment,
    r.copyCtor, r.moveCtor, r.dtor, r.canPassInRegisters, recordIsFinal r⟩

/-- AstVisitor::VisitRecordDecl: skips records in functions, rejects
nested records, unions and class templates with an UnsupportedItem,
skips records without a complete definition or a translatable name;
otherwise provisionally inserts the record into known_type_decls_,
imports the fields, and on failure retracts the insertion and registers
the field diagnostic, while on success registers exactly one Record
item. -/
def visitRecordDecl (s : VState) (r : RecordDeclInfo) : Option VState :=
  if r.ctxFunctionOrMethod then some s
  else if r.ctxRecord then
    some (pushUnsupported s r.canonicalId r.qualifiedName
      "Nested classes are not supported yet" r.beginLoc r.fromCurrentTarget)
  else if r.isUnion then
    some (pushUnsupported s r.canonicalId r.qualifiedName
      "Unions are not supported yet" r.beginLoc r.fromCurrentTarget)
  else if !r.hasCompleteDefinition then some s
  else if r.isCxx && r.isClassTemplateOrSpec then
    some (pushUnsupported s r.canonicalId r.qualifiedName
      "Class templates are not supported yet" r.beginLoc r.fromCurrentTarget)
  else if r.name = "" then some s
  else
    let known1 := insertKnown r.declId s.known
    match importFieldsAux known1 (recordDefaultAccess r) r.fields with
    | .abortOutcome => none
    | .failed msg loc =>
      some (pushUnsupported { s with known := eraseKnown r.declId known1 }
        r.canonicalId r.qualifiedName msg loc r.fromCurrentTarget)
    | .fieldsOk fs =>
      let seen1 := appendBucket s.seenDecls r.canonicalId [mkRecordItem r r.name fs]
      some { s with known := known1, seenDecls := seen1 }

/-- Clang facts about a typedef-name declaration. -/
structure TypedefDeclInfo where
  canonicalId : Nat
  declId : Nat
  qualifiedName : String
  fromCurrentTarget : Bool
  ctxFunctionOrMethod : Bool
  ctxRecord : Bool
  typeSpelling : String
  name : String
  underlying : CType
  owningTarget : String
  beginLoc : Option Nat
  ctxNamespace : Bool

/-- AstVisitor::VisitTypedefNameDecl: skips typedefs in functions,
rejects typedefs nested in records with an UnsupportedItem, skips
typedefs absorbed by the well-known table; an untranslatable name is a
fatal error; otherwise the underlying type is converted, and on success
the typedef joins known_type_decls_ and a TypeAlias item is registered,
while on failure an UnsupportedItem rendering the status is
registered. -/
def visitTypedefNameDecl (s : VState) (t : TypedefDeclInfo) : Option VState :=
  if t.ctxFunctionOrMethod then some s
  else if t.ctxRecord then
    some (pushUnsupported s t.canonicalId t.qualifiedName
      "Typedefs nested in classes are not supported yet" t.beginLoc t.fromCurrentTarget)
  else if (kWellKnownTypes.lookup t.typeSpelling).isSome then some s
  else if t.name = "" then none
  else
    match convertType s.known t.underlying none ccNullableDefault with
    | .checkFail => none
    | .ok u =>
      let seen1 := appendBucket s.seenDecls t.canonicalId
        [.typeAlias ⟨t.name, t.declId, t.owningTarget, u⟩]
      some { s with known := insertKnown t.declId s.known, seenDecls := seen1 }
    | .err e =>
      some (pushUnsupported s t.canonicalId t.qualifiedName (statusToString e)
        t.beginLoc t.fromCurrentTarget)

/-- Clang facts about a declaration with no dedicated importer
(namespaces and all other declaration kinds). -/
structure OtherDeclInfo where
  canonicalId : Nat
  qualifiedName : String
  fromCurrentTarget : Bool
  beginLoc : Option Nat
  ctxNamespace : Bool

/-- A declaration reached by the traversal. -/
inductive DeclInfo where
| funcD (f : FunctionDeclInfo)
| recordD (r : RecordDeclInfo)
| typedefD (t : TypedefDeclInfo)
| namespaceD (n : OtherDeclInfo)
| otherD (o : OtherDeclInfo)

/-- Canonical declaration id of a reached declaration. -/
def DeclInfo.canonicalId : DeclInfo → Nat
| .funcD f => f.canonicalId
| .recordD r => r.canonicalId
| .typedefD t => t.canonicalId
| .namespaceD n => n.canonicalId
| .otherD o => o.canonicalId

/-- Whether the declaration is a namespace. -/
def DeclInfo.isNamespace : DeclInfo → Bool
| .namespaceD _ => true
| _ => false

/-- Whether the immediate declaration context is a namespace. -/
def DeclInfo.ctxNamespace : DeclInfo → Bool
| .funcD f => f.ctxNamespace
| .recordD r => r.ctxNamespace
| .typedefD t => t.ctxNamespace
| .namespaceD n => n.ctxNamespace
| .otherD o => o.ctxNamespace

/-- Qualified name of a reached declaration. -/
def DeclInfo.qualifiedName : DeclInfo → String
| .funcD f => f.qualifiedName
| .recordD r => r.qualifiedName
| .typedefD t => t.qualifiedName
| .namespaceD n => n.qualifiedName
| .otherD o => o.qualifiedName

/-- Whether the reached declaration is from the current target. -/
def DeclInfo.fromCurrentTarget : DeclInfo → Bool
| .funcD f => f.fromCurrentTarget
| .recordD r => r.fromCurrentTarget
| .typedefD t => t.fromCurrentTarget
| .namespaceD n => n.fromCurrentTarget
| .otherD o => o.fromCurrentTarget

/-- Begin location of a reached declaration. -/
def DeclInfo.beginLoc : DeclInfo → Option Nat
| .funcD f => f.beginLoc
| .recordD r => r.beginLoc
| .typedefD t => t.beginLoc
| .namespaceD n => n.beginLoc
| .otherD o => o.beginLoc

/-- The comment manager step: the manager is handed the declaration;
its per-file comment buffering is external to the claims modelled here,
so only the fact of the invocation is recorded. -/
def commentManagerStep (s : VState) (d : DeclInfo) : VState :=
  { s with commentTrail := s.commentTrail ++ [d.canonicalId] }

/-- AstVisitor::TraverseDecl: a declaration whose canonical declaration
already has registered items is skipped unless it is a namespace; a
declaration whose immediate context is a namespace only registers an
UnsupportedItem; otherwise the comment manager runs and the matching
importer is dispatched. -/
def traverseDecl (s : VState) (d : DeclInfo) : Option VState :=
  if containsKey s.seenDecls d.canonicalId && !d.isNamespace then some s
  else if d.ctxNamespace then
    some (pushUnsupported s d.canonicalId d.qualifiedName
      "Items contained in namespaces are not supported yet" d.beginLoc d.fromCurrentTarget)
  else
    let s1 := commentManagerStep s d
    match d with
    | .funcD f => visitFunctionDecl s1 f
    | .recordD r => visitRecordDecl s1 r
    | .typedefD t => visitTypedefNameDecl s1 t
    | .namespaceD _ => some s1
    | .otherD _ => some s1

/-- Traversal of a sequence of reached declarations. -/
def traverseDecls (s : VState) : List DeclInfo → Option VState
| [] => some s
| d :: ds =>
  match traverseDecl s d with
  | none => none
  | some s1 => traverseDecls s1 ds

/-- The initial traversal state. -/
def initialVState : VState := ⟨[], [], []⟩

/-- Declaration kinds the emitter distinguishes when computing the
local order of a decl's items. -/
inductive DeclOrderKind where
| recordKind (nestedInRecord : Bool)
| ctorKind (isDefault : Bool) (isCopy : Bool) (isMove : Bool)
| dtorKind
| otherKind
deriving DecidableEq, Repr

/-- The local_order tiebreak of EmitIRItems: 0 for top-level records, 1
for records nested in records, 2/3/4/5 for default/copy/move/other
constructors, 6 for destructors, 7 otherwise. -/
def localOrder : DeclOrderKind → Nat
| .recordKind nested => if nested then 1 else 0
| .ctorKind isDefault isCopy isMove =>
  if isDefault then 2 else if isCopy then 3 else if isMove then 4 else 5
| .dtorKind => 6
| .otherKind => 7

/-- One seen_decls_ entry as the emitter reads it: the declaration's
begin location (none when invalid), its kind for the tiebreak, and its
registered items. -/
structure SeenEntry where
  loc : Option Nat
  kind : DeclOrderKind
  items : List Item

/-- The tuples EmitIRItems collects: one per registered item, keyed by
the decl's begin location and local order, plus one per floating
comment, keyed by the comment's begin location with local order 0. -/
def emitTuples (seen : List SeenEntry) (comments : List (Option Nat × String)) :
    List (Option Nat × Nat × Item) :=
  (seen.map (fun e => e.items.map (fun it => (e.loc, localOrder e.kind, it)))).flatten
    ++ comments.map (fun c => (c.1, 0, Item.commentItem c.2))

/-- The comparator of the stable sort in EmitIRItems: when either
location is invalid, a precedes b exactly when a is invalid and b is
valid; otherwise a precedes b when its location is earlier in the
translation unit, or at equal locations when its local order is
smaller. -/
def tupLt (a b : Option Nat × Nat × Item) : Bool :=
  match a.1, b.1 with
  | none, none => false
  | none, some _ => true
  | some _, none => false
  | some la, some lb => la < lb || (la == lb && a.2.1 < b.2.1)

/-- The sorted tuple sequence of EmitIRItems: a stable sort under the
comparator. -/
def sortedTuples (seen : List SeenEntry) (comments : List (Option Nat × String)) :
    List (Option Nat × Nat × Item) :=
  (emitTuples seen comments).mergeSort (fun a b => !tupLt b a)

/-- AstVisitor::EmitIRItems: the item stream is the third projection of
the sorted tuples. -/
def emitIRItems (seen : List SeenEntry) (comments : List (Option Nat × String)) : List Item :=
  (sortedTuples seen comments).map (fun t => t.2.2)

/-- The ordering property the emitted tuple stream satisfies pairwise:
an invalid location precedes everything, a valid location never precedes
an invalid one, and valid locations are ordered by position with the
local order as tiebreak. -/
def emittedOrder : (Option Nat × Nat × Item) → (Option Nat × Nat × Item) → Prop
| (none, _, _), _ => True
| (some _, _, _), (none, _, _) => False
| (some la, oa, _), (some lb, ob, _) => la < lb ∨ (la = lb ∧ oa ≤ ob)

end Crubit

namespace Crubit

/-- Whether a conversion result is a mapped type. -/
def isOkB : ConvResult → Bool
| .ok _ => true
| _ => false

/-- Whether every parameter starting at the given index converts
successfully and passes the by-value register check, mirroring the
parameter loop of VisitFunctionDecl. -/
def paramsAllConvertible (known : List Nat) (lf : Option FunctionLifetimes) :
    List ParamInfo → Nat → Bool
| [], _ => true
| p :: rest, i =>
  isOkB (convertType known p.type (paramLifetimesAt lf i) ccNullableDefault)
  && byValuePassOk p.type
  && paramsAllConvertible known lf rest (i + 1)

/-- Whether every type conversion and by-value register check of a
function declaration succeeds: the implicit this parameter (instance
methods), every declared parameter, and the return type. -/
def conversionsAllOk (known : List Nat) (f : FunctionDeclInfo) : Bool :=
  (match f.method with
   | some m =>
     !m.isInstance
     || isOkB (convertType known m.thisType (f.lifetimes.map FunctionLifetimes.thisLifetimes) false)
   | none => true)
  && lifetimesCountOk f
  && paramsAllConvertible known f.lifetimes f.params 0
  && byValuePassOk f.returnType
  && isOkB (convertType known f.returnType (f.lifetimes.map FunctionLifetimes.returnLifetimes)
       ccNullableDefault)

/-- Count of Func, Record and TypeAlias items in a list. -/
def majorCount (its : List Item) : Nat := its.countP (fun it => it.isMajor)

/-- A trivially defined public special member, used by the concrete
record fixtures. -/
def smfFixture : SpecialMemberFunc := ⟨.trivialDef, .pub⟩

/-- A builtin type no branch of ConvertType handles, used by the
fixtures as an untranslatable type. -/
def badTypeFixture : CType := .builtin false (.otherB "X")

/-- The C++ int type as a fixture. -/
def intTypeFixture : CType := .builtin false (.integer "int" true 32)

/-- The C++ void type as a fixture. -/
def voidTypeFixture : CType := .builtin false .voidK

/-- A record fixture whose single field has an untranslatable type. -/
def recordBadFieldFixture : RecordDeclInfo :=
  ⟨1, 10, "S", true, false, false, false, true, false, false, false, false, "S",
    [⟨badTypeFixture, "f", .noAccess, none, 0, none⟩],
    4, 4, smfFixture, smfFixture, smfFixture, true, none, "t", some 5, false⟩

/-- A private method fixture with an untranslatable parameter type. -/
def privateMethodFixture : FunctionDeclInfo :=
  ⟨2, "C::m", true, false, .identKind "m",
    some ⟨.priv, false, voidTypeFixture, .unqualified, false, false, 9⟩,
    [⟨badTypeFixture, "a", none⟩], voidTypeFixture, none, none, false, "_Zm", none, "t",
    some 7, false⟩

/-- A free function fixture whose name kind is an operator and whose
single parameter is a by-value record that converts but cannot pass in
registers. -/
def operatorByValueFixture : FunctionDeclInfo :=
  ⟨3, "operator+", true, false, .otherKind, none,
    [⟨.tagType false "Nontrivial" 5 (some "Nontrivial") true false, "a", none⟩],
    voidTypeFixture, none, none, false, "_Zpl", none, "t", some 8, false⟩

/-- A state fixture in which the record with declaration id 5 is
known. -/
def knownFiveState : VState := ⟨[], [5], []⟩

/-- A private method fixture whose parameter and return types all
translate. -/
def privateOkMethodFixture : FunctionDeclInfo :=
  ⟨4, "C::g", true, false, .identKind "g",
    some ⟨.priv, false, voidTypeFixture, .unqualified, false, false, 9⟩,
    [⟨intTypeFixture, "a", none⟩], voidTypeFixture, none, none, false, "_Zg", none, "t",
    some 7, false⟩

/-- A free operator fixture whose parameter and return types all
translate and pass the by-value checks. -/
def operatorOkFixture : FunctionDeclInfo :=
  ⟨6, "operator-", true, false, .otherKind, none,
    [⟨intTypeFixture, "a", none⟩], voidTypeFixture, none, none, false, "_Zmi", none, "t",
    some 9, false⟩

end Crubit

namespace Crubit

theorem convertType_lookup_some (known : List Nat) (q : CType) (l : Option (List Nat))
    (b : Bool) (rs : String) (h : kWellKnownTypes.lookup q.spellingOf = some rs) :
    convertType known q l b =
      .ok (MappedType.setConst q.isConstOf (MappedType.Simple rs q.spellingOf)) := by
  cases q <;> rw [convertType.eq_def] <;> simp only [CType.spellingOf] at h ⊢ <;> rw [h]

theorem convertType_pointer_noLifetimes (known : List Nat) (c : Bool) (sp : String)
    (pt : CType) (b : Bool) (h : kWellKnownTypes.lookup sp = none) :
    convertType known (.pointer c sp pt) none b =
      (match convertType known pt none ccNullableDefault with
       | .ok p => .ok (MappedType.setConst c (MappedType.PointerTo p none b))
       | .checkFail => .checkFail
       | .err _ => .err (unsupportedTypeMsg sp)) := by
  rw [convertType.eq_def]
  simp only [CType.spellingOf]
  rw [h]

theorem convertType_pointer_nilStack (known : List Nat) (c : Bool) (sp : String)
    (pt : CType) (b : Bool) (h : kWellKnownTypes.lookup sp = none) :
    convertType known (.pointer c sp pt) (some []) b = .checkFail := by
  rw [convertType.eq_def]
  simp only [CType.spellingOf]
  rw [h]
  simp

theorem convertType_pointer_consStack (known : List Nat) (c : Bool) (sp : String)
    (pt : CType) (b : Bool) (ls : List Nat) (hns : ls ≠ [])
    (h : kWellKnownTypes.lookup sp = none) :
    convertType known (.pointer c sp pt) (some ls) b =
      (match convertType known pt (some ls.dropLast) ccNullableDefault with
       | .ok p =>
         .ok (MappedType.setConst c (MappedType.PointerTo p (some (ls.getLast hns)) b))
       | .checkFail => .checkFail
       | .err _ => .err (unsupportedTypeMsg sp)) := by
  rw [convertType.eq_def]
  simp only [CType.spellingOf]
  rw [h]
  simp [hns]

theorem convertType_lvalueRef_noLifetimes (known : List Nat) (c : Bool) (sp : String)
    (pt : CType) (b : Bool) (h : kWellKnownTypes.lookup sp = none) :
    convertType known (.lvalueRef c sp pt) none b =
      (match convertType known pt none ccNullableDefault with
       | .ok p => .ok (MappedType.setConst c (MappedType.LValueReferenceTo p none))
       | .checkFail => .checkFail
       | .err _ => .err (unsupportedTypeMsg sp)) := by
  rw [convertType.eq_def]
  simp only [CType.spellingOf]
  rw [h]

theorem convertType_lvalueRef_nilStack (known : List Nat) (c : Bool) (sp : String)
    (pt : CType) (b : Bool) (h : kWellKnownTypes.lookup sp = none) :
    convertType known (.lvalueRef c sp pt) (some []) b = .checkFail := by
  rw [convertType.eq_def]
  simp only [CType.spellingOf]
  rw [h]
  simp

theorem convertType_lvalueRef_consStack (known : List Nat) (c : Bool) (sp : String)
    (pt : CType) (b : Bool) (ls : List Nat) (hns : ls ≠ [])
    (h : kWellKnownTypes.lookup sp = none) :
    convertType known (.lvalueRef c sp pt) (some ls) b =
      (match convertType known pt (some ls.dropLast) ccNullableDefault with
       | .ok p =>
         .ok (MappedType.setConst c (MappedType.LValueReferenceTo p (some (ls.getLast hns))))
       | .checkFail => .checkFail
       | .err _ => .err (unsupportedTypeMsg sp)) := by
  rw [convertType.eq_def]
  simp only [CType.spellingOf]
  rw [h]
  simp [hns]

theorem convertType_integer (known : List Nat) (c : Bool) (s : String) (sg : Bool)
    (w : Nat) (l : Option (List Nat)) (b : Bool)
    (h : kWellKnownTypes.lookup s = none) :
    convertType known (.builtin c (.integer s sg w)) l b =
      (if w = 8 ∨ w = 16 ∨ w = 32 ∨ w = 64 then
        .ok (MappedType.setConst c
          (MappedType.Simple ((if sg then "i" else "u") ++ toString w) s))
      else .err (unsupportedTypeMsg s)) := by
  rw [convertType.eq_def]
  simp only [CType.spellingOf]
  rw [h]

theorem convertType_tag (known : List Nat) (c : Bool) (sp : String) (declId : Nat)
    (ident : Option String) (isRec passable : Bool) (l : Option (List Nat)) (b : Bool)
    (h : kWellKnownTypes.lookup sp = none) :
    convertType known (.tagType c sp declId ident isRec passable) l b =
      (if declId ∈ known then
        match ident with
        | some nm => .ok (MappedType.setConst c (MappedType.WithDeclIds nm declId nm declId))
        | none => .err (unsupportedTypeMsg sp)
      else .err (unsupportedTypeMsg sp)) := by
  rw [convertType.eq_def]
  simp only [CType.spellingOf]
  rw [h]

theorem convertType_typedef (known : List Nat) (c : Bool) (sp : String) (declId : Nat)
    (ident : Option String) (l : Option (List Nat)) (b : Bool)
    (h : kWellKnownTypes.lookup sp = none) :
    convertType known (.typedefType c sp declId ident) l b =
      (if declId ∈ known then
        match ident with
        | some nm => .ok (MappedType.setConst c (MappedType.WithDeclIds nm declId nm declId))
        | none => .err (unsupportedTypeMsg sp)
      else .err (unsupportedTypeMsg sp)) := by
  rw [convertType.eq_def]
  simp only [CType.spellingOf]
  rw [h]

end Crubit

namespace Crubit

/-- Claim C4: for every qualified C++ type whose unqualified spelling is
a key of the well-known table, the type mapper returns a simple
MappedType whose rs-side name is the tabulated name and whose cc-side
name is the original unqualified spelling, with only the
const-qualification propagated; the typedef is not desugared (the
result ignores the type structure entirely), and the table branch takes
priority over every other rule, applying to every type shape alike. -/
theorem c4_wellKnown_short_circuit (known : List Nat) (q : CType) (l : Option (List Nat))
    (b : Bool) (rs : String) (h : kWellKnownTypes.lookup q.spellingOf = some rs) :
    convertType known q l b =
      .ok (MappedType.setConst q.isConstOf (MappedType.Simple rs q.spellingOf)) :=
  convertType_lookup_some known q l b rs h

theorem c4_wellKnown_short_circuit_witness :
    kWellKnownTypes.lookup (CType.typedefType false "size_t" 4 none).spellingOf = some "usize"
    ∧ convertType [] (CType.typedefType false "size_t" 4 none) none true =
        .ok (MappedType.setConst false (MappedType.Simple "usize" "size_t")) :=
  ⟨by rfl,
    c4_wellKnown_short_circuit [] (CType.typedefType false "size_t" 4 none) none true
      "usize" (by rfl)⟩

/-- Claim C5: a builtin integer type whose spelling is not in the
well-known table maps to the target-side name built from its signedness
and width, keeping the original spelling on the cc side, exactly when
the width is 8, 16, 32 or 64; any other width yields the
unsupported-type error carrying the spelling. -/
theorem c5_integer_width_law (known : List Nat) (c : Bool) (s : String) (sg : Bool)
    (w : Nat) (l : Option (List Nat)) (b : Bool)
    (h : kWellKnownTypes.lookup s = none) :
    convertType known (.builtin c (.integer s sg w)) l b =
      (if w = 8 ∨ w = 16 ∨ w = 32 ∨ w = 64 then
        .ok (MappedType.setConst c
          (MappedType.Simple ((if sg then "i" else "u") ++ toString w) s))
      else .err (unsupportedTypeMsg s)) :=
  convertType_integer known c s sg w l b h

theorem c5_integer_width_law_witness :
    convertType [] (.builtin false (.integer "int" true 32)) none true =
      .ok (MappedType.setConst false (MappedType.Simple "i32" "int"))
    ∧ convertType [] (.builtin false (.integer "int24" true 24)) none true =
      .err (unsupportedTypeMsg "int24") := by
  refine ⟨?_, ?_⟩
  · rw [c5_integer_width_law [] false "int" true 32 none true (by rfl)]
    rfl
  · rw [c5_integer_width_law [] false "int24" true 24 none true (by rfl)]
    rfl

end Crubit

namespace Crubit

theorem tupLe_total (a b : Option Nat × Nat × Item) : ((!tupLt b a) || !tupLt a b) = true := by
  obtain ⟨la, oa, ia⟩ := a
  obtain ⟨lb, ob, ib⟩ := b
  cases la <;> cases lb <;> simp [tupLt] <;> omega

theorem tupLe_trans (a b c : Option Nat × Nat × Item) (h1 : (!tupLt b a) = true)
    (h2 : (!tupLt c b) = true) : (!tupLt c a) = true := by
  obtain ⟨la, oa, ia⟩ := a
  obtain ⟨lb, ob, ib⟩ := b
  obtain ⟨lc, oc, ic⟩ := c
  cases la <;> cases lb <;> cases lc <;> simp [tupLt] at h1 h2 ⊢ <;> omega

theorem tupLe_emittedOrder (a b : Option Nat × Nat × Item) (h : (!tupLt b a) = true) :
    emittedOrder a b := by
  obtain ⟨la, oa, ia⟩ := a
  obtain ⟨lb, ob, ib⟩ := b
  cases la <;> cases lb <;> simp [tupLt, emittedOrder] at h ⊢ <;> omega

/-- Claim C1: the emitted item stream is the projection of the sorted
tuple sequence, which is a permutation of the collected tuples and is
pairwise ordered: every invalid-location tuple precedes every
valid-location tuple, valid locations are in translation-unit order,
and equal locations are ordered by the local_order tiebreak, whose
values are 0 for top-level records (and comments, per emitTuples), 1
for nested record shells, 2/3/4/5 for default/copy/move/other
constructors, 6 for destructors and 7 otherwise. -/
theorem c1_emitter_source_order (seen : List SeenEntry)
    (comments : List (Option Nat × String)) :
    emitIRItems seen comments = (sortedTuples seen comments).map (fun t => t.2.2)
    ∧ (sortedTuples seen comments).Perm (emitTuples seen comments)
    ∧ List.Pairwise emittedOrder (sortedTuples seen comments)
    ∧ localOrder (.recordKind false) = 0
    ∧ localOrder (.recordKind true) = 1
    ∧ localOrder (.ctorKind true false false) = 2
    ∧ localOrder (.ctorKind false true false) = 3
    ∧ localOrder (.ctorKind false false true) = 4
    ∧ localOrder (.ctorKind false false false) = 5
    ∧ localOrder .dtorKind = 6
    ∧ localOrder .otherKind = 7 := by
  refine ⟨rfl, List.mergeSort_perm _ _, ?_, rfl, rfl, rfl, rfl, rfl, rfl, rfl, rfl⟩
  have h := @List.sorted_mergeSort _ (fun a b => !tupLt b a)
    tupLe_trans tupLe_total (emitTuples seen comments)
  exact List.Pairwise.imp (fun hab => tupLe_emittedOrder _ _ hab) h

end Crubit

namespace Crubit

theorem lookup_mem_pair : ∀ (l : List (String × String)) (k v : String),
    l.lookup k = some v → (k, v) ∈ l := by
  intro l k v h
  induction l with
  | nil => simp [List.lookup] at h
  | cons e es ih =>
    obtain ⟨k1, v1⟩ := e
    rw [List.lookup] at h
    split at h
    · next heq =>
      obtain rfl : v1 = v := by cases h; rfl
      obtain rfl : k1 = k := by
        have := heq
        simp only [beq_iff_eq] at this
        exact this.symm
      exact List.mem_cons_self _ _
    · exact List.mem_cons_of_mem _ (ih h)

theorem wellKnown_pair_props :
    ∀ p ∈ kWellKnownTypes, ccIsWrapperName p.1 = false ∧ rsIsWrapperName p.2 = false := by
  decide

theorem parallelB_simple (rs cc : String) (h1 : ccIsWrapperName cc = false)
    (h2 : rsIsWrapperName rs = false) :
    parallelB (MappedType.Simple rs cc).cc_type (MappedType.Simple rs cc).rs_type = true := by
  simp [MappedType.Simple, parallelB, parallelListB, h1, h2]

theorem parallelB_withDeclIds (nm : String) (i : Nat) (h1 : ccIsWrapperName nm = false)
    (h2 : rsIsWrapperName nm = false) :
    parallelB (MappedType.WithDeclIds nm i nm i).cc_type
      (MappedType.WithDeclIds nm i nm i).rs_type = true := by
  simp [MappedType.WithDeclIds, parallelB, parallelListB, h1, h2]

theorem parallelB_setConst (b : Bool) (t : MappedType) :
    parallelB (MappedType.setConst b t).cc_type (MappedType.setConst b t).rs_type
      = parallelB t.cc_type t.rs_type := by
  obtain ⟨ct, rt⟩ := t
  cases ct
  cases rt
  simp [MappedType.setConst, parallelB, CcType.name, CcType.type_params, CcType.decl_id]

theorem parallelB_pointerTo (p : MappedType) (lt : Option Nat) (nb : Bool)
    (hp : parallelB p.cc_type p.rs_type = true) :
    parallelB (MappedType.PointerTo p lt nb).cc_type
      (MappedType.PointerTo p lt nb).rs_type = true := by
  obtain ⟨ct, rt⟩ := p
  by_cases hc : ct.is_const
  · simp [MappedType.PointerTo, parallelB, parallelListB, hc, ccIsWrapperName,
      rsIsWrapperName, rsWrapperNames, hp]
  · simp only [Bool.not_eq_true] at hc
    simp [MappedType.PointerTo, parallelB, parallelListB, hc, ccIsWrapperName,
      rsIsWrapperName, rsWrapperNames, hp]

theorem parallelB_lvalueRefTo (p : MappedType) (lt : Option Nat)
    (hp : parallelB p.cc_type p.rs_type = true) :
    parallelB (MappedType.LValueReferenceTo p lt).cc_type
      (MappedType.LValueReferenceTo p lt).rs_type = true := by
  obtain ⟨ct, rt⟩ := p
  by_cases hc : ct.is_const
  · simp [MappedType.LValueReferenceTo, parallelB, parallelListB, hc, ccIsWrapperName,
      rsIsWrapperName, rsWrapperNames, hp]
  · simp only [Bool.not_eq_true] at hc
    simp [MappedType.LValueReferenceTo, parallelB, parallelListB, hc, ccIsWrapperName,
      rsIsWrapperName, rsWrapperNames, hp]

end Crubit

namespace Crubit

theorem parallel_of_lookup_some (q : CType) (rs : String) (c : Bool)
    (h : kWellKnownTypes.lookup q.spellingOf = some rs) :
    parallelB (MappedType.setConst c (MappedType.Simple rs q.spellingOf)).cc_type
      (MappedType.setConst c (MappedType.Simple rs q.spellingOf)).rs_type = true := by
  have hmem := lookup_mem_pair _ _ _ h
  have hprops := wellKnown_pair_props _ hmem
  rw [parallelB_setConst]
  exact parallelB_simple _ _ hprops.1 hprops.2


theorem convertType_pointer_ok_none_inv (known : List Nat) (c : Bool) (sp : String)
    (pt : CType) (b : Bool) (t : MappedType) (hsp : kWellKnownTypes.lookup sp = none)
    (hconv : convertType known (.pointer c sp pt) none b = .ok t) :
    ∃ p, convertType known pt none ccNullableDefault = .ok p
      ∧ t = MappedType.setConst c (MappedType.PointerTo p none b) := by
  rw [convertType_pointer_noLifetimes known c sp pt b hsp] at hconv
  rcases hin : convertType known pt none ccNullableDefault with p | m | _ <;>
    rw [hin] at hconv
  · refine ⟨p, rfl, ?_⟩
    have h2 : ConvResult.ok (MappedType.setConst c (MappedType.PointerTo p none b))
        = ConvResult.ok t := hconv
    cases h2
    rfl
  · have h2 : ConvResult.err (unsupportedTypeMsg sp) = ConvResult.ok t := hconv
    cases h2
  · have h2 : ConvResult.checkFail = ConvResult.ok t := hconv
    cases h2

theorem convertType_pointer_ok_some_inv (known : List Nat) (c : Bool) (sp : String)
    (pt : CType) (ls : List Nat) (b : Bool) (t : MappedType)
    (hsp : kWellKnownTypes.lookup sp = none)
    (hconv : convertType known (.pointer c sp pt) (some ls) b = .ok t) :
    ∃ p, ∃ hne : ls ≠ [], convertType known pt (some ls.dropLast) ccNullableDefault = .ok p
      ∧ t = MappedType.setConst c (MappedType.PointerTo p (some (ls.getLast hne)) b) := by
  by_cases hne : ls = []
  · subst hne
    rw [convertType_pointer_nilStack known c sp pt b hsp] at hconv
    cases hconv
  · rw [convertType_pointer_consStack known c sp pt b ls hne hsp] at hconv
    rcases hin : convertType known pt (some ls.dropLast) ccNullableDefault with p | m | _ <;>
      rw [hin] at hconv
    · refine ⟨p, hne, rfl, ?_⟩
      have h2 : ConvResult.ok
          (MappedType.setConst c (MappedType.PointerTo p (some (ls.getLast hne)) b))
          = ConvResult.ok t := hconv
      cases h2
      rfl
    · have h2 : ConvResult.err (unsupportedTypeMsg sp) = ConvResult.ok t := hconv
      cases h2
    · have h2 : ConvResult.checkFail = ConvResult.ok t := hconv
      cases h2

theorem convertType_lvalueRef_ok_none_inv (known : List Nat) (c : Bool) (sp : String)
    (pt : CType) (b : Bool) (t : MappedType) (hsp : kWellKnownTypes.lookup sp = none)
    (hconv : convertType known (.lvalueRef c sp pt) none b = .ok t) :
    ∃ p, convertType known pt none ccNullableDefault = .ok p
      ∧ t = MappedType.setConst c (MappedType.LValueReferenceTo p none) := by
  rw [convertType_lvalueRef_noLifetimes known c sp pt b hsp] at hconv
  rcases hin : convertType known pt none ccNullableDefault with p | m | _ <;>
    rw [hin] at hconv
  · refine ⟨p, rfl, ?_⟩
    have h2 : ConvResult.ok (MappedType.setConst c (MappedType.LValueReferenceTo p none))
        = ConvResult.ok t := hconv
    cases h2
    rfl
  · have h2 : ConvResult.err (unsupportedTypeMsg sp) = ConvResult.ok t := hconv
    cases h2
  · have h2 : ConvResult.checkFail = ConvResult.ok t := hconv
    cases h2

theorem convertType_lvalueRef_ok_some_inv (known : List Nat) (c : Bool) (sp : String)
    (pt : CType) (ls : List Nat) (b : Bool) (t : MappedType)
    (hsp : kWellKnownTypes.lookup sp = none)
    (hconv : convertType known (.lvalueRef c sp pt) (some ls) b = .ok t) :
    ∃ p, ∃ hne : ls ≠ [], convertType known pt (some ls.dropLast) ccNullableDefault = .ok p
      ∧ t = MappedType.setConst c (MappedType.LValueReferenceTo p (some (ls.getLast hne))) := by
  by_cases hne : ls = []
  · subst hne
    rw [convertType_lvalueRef_nilStack known c sp pt b hsp] at hconv
    cases hconv
  · rw [convertType_lvalueRef_consStack known c sp pt b ls hne hsp] at hconv
    rcases hin : convertType known pt (some ls.dropLast) ccNullableDefault with p | m | _ <;>
      rw [hin] at hconv
    · refine ⟨p, hne, rfl, ?_⟩
      have h2 : ConvResult.ok
          (MappedType.setConst c (MappedType.LValueReferenceTo p (some (ls.getLast hne))))
          = ConvResult.ok t := hconv
      cases h2
      rfl
    · have h2 : ConvResult.err (unsupportedTypeMsg sp) = ConvResult.ok t := hconv
      cases h2
    · have h2 : ConvResult.checkFail = ConvResult.ok t := hconv
      cases h2

theorem convertType_boolK (known : List Nat) (c : Bool) (l : Option (List Nat)) (b : Bool)
    (h : kWellKnownTypes.lookup "bool" = none) :
    convertType known (.builtin c .boolK) l b =
      .ok (MappedType.setConst c (MappedType.Simple "bool" "bool")) := by
  rw [convertType.eq_def]
  simp only [CType.spellingOf]
  rw [h]

theorem convertType_floatK (known : List Nat) (c : Bool) (l : Option (List Nat)) (b : Bool)
    (h : kWellKnownTypes.lookup "float" = none) :
    convertType known (.builtin c .floatK) l b =
      .ok (MappedType.setConst c (MappedType.Simple "f32" "float")) := by
  rw [convertType.eq_def]
  simp only [CType.spellingOf]
  rw [h]

theorem convertType_doubleK (known : List Nat) (c : Bool) (l : Option (List Nat)) (b : Bool)
    (h : kWellKnownTypes.lookup "double" = none) :
    convertType known (.builtin c .doubleK) l b =
      .ok (MappedType.setConst c (MappedType.Simple "f64" "double")) := by
  rw [convertType.eq_def]
  simp only [CType.spellingOf]
  rw [h]

theorem convertType_voidK (known : List Nat) (c : Bool) (l : Option (List Nat)) (b : Bool)
    (h : kWellKnownTypes.lookup "void" = none) :
    convertType known (.builtin c .voidK) l b =
      .ok (MappedType.setConst c MappedType.Void) := by
  rw [convertType.eq_def]
  simp only [CType.spellingOf]
  rw [h]

theorem convertType_otherB (known : List Nat) (c : Bool) (s : String)
    (l : Option (List Nat)) (b : Bool) (h : kWellKnownTypes.lookup s = none) :
    convertType known (.builtin c (.otherB s)) l b = .err (unsupportedTypeMsg s) := by
  rw [convertType.eq_def]
  simp only [CType.spellingOf]
  rw [h]

theorem convertType_builtin_ok_inv (known : List Nat) (c : Bool) (k : BuiltinKind)
    (l : Option (List Nat)) (b : Bool) (t : MappedType)
    (hsp : kWellKnownTypes.lookup (CType.builtin c k).spellingOf = none)
    (hconv : convertType known (.builtin c k) l b = .ok t) :
    ∃ rs cc, t = MappedType.setConst c (MappedType.Simple rs cc)
      ∧ rsIsWrapperName rs = false ∧ cc = (CType.builtin c k).spellingOf := by
  cases k with
  | boolK =>
    simp only [CType.spellingOf] at hsp
    rw [convertType_boolK known c l b hsp] at hconv
    cases hconv
    exact ⟨"bool", "bool", rfl, by decide, rfl⟩
  | floatK =>
    simp only [CType.spellingOf] at hsp
    rw [convertType_floatK known c l b hsp] at hconv
    cases hconv
    exact ⟨"f32", "float", rfl, by decide, rfl⟩
  | doubleK =>
    simp only [CType.spellingOf] at hsp
    rw [convertType_doubleK known c l b hsp] at hconv
    cases hconv
    exact ⟨"f64", "double", rfl, by decide, rfl⟩
  | voidK =>
    simp only [CType.spellingOf] at hsp
    rw [convertType_voidK known c l b hsp] at hconv
    cases hconv
    exact ⟨"()", "void", rfl, by decide, rfl⟩
  | integer s sg w =>
    simp only [CType.spellingOf] at hsp
    rw [convertType_integer known c s sg w l b hsp] at hconv
    by_cases hw : w = 8 ∨ w = 16 ∨ w = 32 ∨ w = 64
    · rw [if_pos hw] at hconv
      cases hconv
      refine ⟨_, s, rfl, ?_, rfl⟩
      rcases hw with rfl | rfl | rfl | rfl <;> cases sg <;> decide
    · rw [if_neg hw] at hconv
      cases hconv
  | otherB s =>
    simp only [CType.spellingOf] at hsp
    rw [convertType_otherB known c s l b hsp] at hconv
    cases hconv

theorem convertType_tag_ok_inv (known : List Nat) (c : Bool) (sp : String) (declId : Nat)
    (ident : Option String) (isRec passable : Bool) (l : Option (List Nat)) (b : Bool)
    (t : MappedType) (hsp : kWellKnownTypes.lookup sp = none)
    (hconv : convertType known (.tagType c sp declId ident isRec passable) l b = .ok t) :
    ∃ nm, ident = some nm ∧ declId ∈ known
      ∧ t = MappedType.setConst c (MappedType.WithDeclIds nm declId nm declId) := by
  rw [convertType_tag known c sp declId ident isRec passable l b hsp] at hconv
  by_cases hk : declId ∈ known
  · rw [if_pos hk] at hconv
    rcases ident with _ | nm
    · cases hconv
    · have h2 : ConvResult.ok (MappedType.setConst c (MappedType.WithDeclIds nm declId nm declId))
          = ConvResult.ok t := hconv
      cases h2
      exact ⟨nm, rfl, hk, rfl⟩
  · rw [if_neg hk] at hconv
    cases hconv

theorem convertType_typedef_ok_inv (known : List Nat) (c : Bool) (sp : String) (declId : Nat)
    (ident : Option String) (l : Option (List Nat)) (b : Bool)
    (t : MappedType) (hsp : kWellKnownTypes.lookup sp = none)
    (hconv : convertType known (.typedefType c sp declId ident) l b = .ok t) :
    ∃ nm, ident = some nm ∧ declId ∈ known
      ∧ t = MappedType.setConst c (MappedType.WithDeclIds nm declId nm declId) := by
  rw [convertType_typedef known c sp declId ident l b hsp] at hconv
  by_cases hk : declId ∈ known
  · rw [if_pos hk] at hconv
    rcases ident with _ | nm
    · cases hconv
    · have h2 : ConvResult.ok (MappedType.setConst c (MappedType.WithDeclIds nm declId nm declId))
          = ConvResult.ok t := hconv
      cases h2
      exact ⟨nm, rfl, hk, rfl⟩
  · rw [if_neg hk] at hconv
    cases hconv

/-- Claim C3: every MappedType the type mapper produces has structurally
parallel cc and rs sides: matching type-parameter arity at every level,
wrapper layers in lockstep each with a single parallel pointee, and
declaration ids set on both sides together or on neither, provided the
clang-supplied names in the input type are C++ names (never a wrapper
spelling). -/
theorem c3_mappedType_parallel : ∀ (q : CType) (known : List Nat) (l : Option (List Nat))
    (b : Bool) (t : MappedType), identsOk q = true → convertType known q l b = .ok t →
    parallelB t.cc_type t.rs_type = true := by
  intro q
  induction q with
  | pointer c sp pt ih =>
    intro known l b t hid hconv
    rcases hl : kWellKnownTypes.lookup (CType.pointer c sp pt).spellingOf with _ | rs
    · have hid2 : identsOk pt = true := by simpa [identsOk] using hid
      have hsp : kWellKnownTypes.lookup sp = none := by simpa [CType.spellingOf] using hl
      rcases l with _ | ls
      · obtain ⟨p, hin, rfl⟩ := convertType_pointer_ok_none_inv known c sp pt b t hsp hconv
        rw [parallelB_setConst]
        exact parallelB_pointerTo _ _ _ (ih known none ccNullableDefault p hid2 hin)
      · obtain ⟨p, hne, hin, rfl⟩ :=
          convertType_pointer_ok_some_inv known c sp pt ls b t hsp hconv
        rw [parallelB_setConst]
        exact parallelB_pointerTo _ _ _ (ih known _ ccNullableDefault p hid2 hin)
    · rw [convertType_lookup_some known _ l b rs hl] at hconv
      cases hconv
      exact parallel_of_lookup_some _ rs _ hl
  | lvalueRef c sp pt ih =>
    intro known l b t hid hconv
    rcases hl : kWellKnownTypes.lookup (CType.lvalueRef c sp pt).spellingOf with _ | rs
    · have hid2 : identsOk pt = true := by simpa [identsOk] using hid
      have hsp : kWellKnownTypes.lookup sp = none := by simpa [CType.spellingOf] using hl
      rcases l with _ | ls
      · obtain ⟨p, hin, rfl⟩ := convertType_lvalueRef_ok_none_inv known c sp pt b t hsp hconv
        rw [parallelB_setConst]
        exact parallelB_lvalueRefTo _ _ (ih known none ccNullableDefault p hid2 hin)
      · obtain ⟨p, hne, hin, rfl⟩ :=
          convertType_lvalueRef_ok_some_inv known c sp pt ls b t hsp hconv
        rw [parallelB_setConst]
        exact parallelB_lvalueRefTo _ _ (ih known _ ccNullableDefault p hid2 hin)
    · rw [convertType_lookup_some known _ l b rs hl] at hconv
      cases hconv
      exact parallel_of_lookup_some _ rs _ hl
  | builtin c k =>
    intro known l b t hid hconv
    rcases hl : kWellKnownTypes.lookup (CType.builtin c k).spellingOf with _ | rs
    · obtain ⟨rs, cc, rfl, hrs, hcc⟩ := convertType_builtin_ok_inv known c k l b t hl hconv
      rw [parallelB_setConst]
      refine parallelB_simple _ _ ?_ hrs
      subst hcc
      cases k with
      | integer s sg w =>
        simp only [identsOk, decide_eq_true_eq] at hid
        simp [ccIsWrapperName, CType.spellingOf, hid.2.1, hid.2.2]
      | boolK => simp [CType.spellingOf, ccIsWrapperName]
      | floatK => simp [CType.spellingOf, ccIsWrapperName]
      | doubleK => simp [CType.spellingOf, ccIsWrapperName]
      | voidK => simp [CType.spellingOf, ccIsWrapperName]
      | otherB s =>
        exfalso
        have : convertType known (CType.builtin c (.otherB s)) l b = .err (unsupportedTypeMsg s) :=
          convertType_otherB known c s l b (by simpa [CType.spellingOf] using hl)
        rw [this] at hconv
        cases hconv
    · rw [convertType_lookup_some known _ l b rs hl] at hconv
      cases hconv
      exact parallel_of_lookup_some _ rs _ hl
  | tagType c sp declId ident isRec passable =>
    intro known l b t hid hconv
    rcases hl : kWellKnownTypes.lookup (CType.tagType c sp declId ident isRec passable).spellingOf
      with _ | rs
    · have hs : kWellKnownTypes.lookup sp = none := by simpa [CType.spellingOf] using hl
      obtain ⟨nm, hident, hk, rfl⟩ :=
        convertType_tag_ok_inv known c sp declId ident isRec passable l b t hs hconv
      subst hident
      simp only [identsOk, decide_eq_true_eq] at hid
      rw [parallelB_setConst]
      exact parallelB_withDeclIds _ _
        (by simp [ccIsWrapperName, hid.2.1, hid.2.2])
        (by simp [rsIsWrapperName, hid.1])
    · rw [convertType_lookup_some known _ l b rs hl] at hconv
      cases hconv
      exact parallel_of_lookup_some _ rs _ hl
  | typedefType c sp declId ident =>
    intro known l b t hid hconv
    rcases hl : kWellKnownTypes.lookup (CType.typedefType c sp declId ident).spellingOf
      with _ | rs
    · have hs : kWellKnownTypes.lookup sp = none := by simpa [CType.spellingOf] using hl
      obtain ⟨nm, hident, hk, rfl⟩ :=
        convertType_typedef_ok_inv known c sp declId ident l b t hs hconv
      subst hident
      simp only [identsOk, decide_eq_true_eq] at hid
      rw [parallelB_setConst]
      exact parallelB_withDeclIds _ _
        (by simp [ccIsWrapperName, hid.2.1, hid.2.2])
        (by simp [rsIsWrapperName, hid.1])
    · rw [convertType_lookup_some known _ l b rs hl] at hconv
      cases hconv
      exact parallel_of_lookup_some _ rs _ hl

theorem c3_mappedType_parallel_witness :
    identsOk (.pointer false "int *" intTypeFixture) = true
    ∧ parallelB
        (MappedType.setConst false
          (MappedType.PointerTo (MappedType.setConst false (MappedType.Simple "i32" "int"))
            none true)).cc_type
        (MappedType.setConst false
          (MappedType.PointerTo (MappedType.setConst false (MappedType.Simple "i32" "int"))
            none true)).rs_type = true :=
  ⟨by decide,
    c3_mappedType_parallel (.pointer false "int *" intTypeFixture) [] none true _
      (by decide) (by rfl)⟩

theorem setConst_rs (b : Bool) (t : MappedType) :
    (MappedType.setConst b t).rs_type = t.rs_type := rfl

theorem rsSpine_pointerTo (p : MappedType) (lt : Option Nat) (nb : Bool) :
    rsSpine (MappedType.PointerTo p lt nb).rs_type
      = (MappedType.PointerTo p lt nb).rs_type :: rsSpine p.rs_type := by
  by_cases hc : p.cc_type.is_const <;>
    simp [MappedType.PointerTo, rsSpine, rsWrapperNames, hc]

theorem rsSpine_lvalueRefTo (p : MappedType) (lt : Option Nat) :
    rsSpine (MappedType.LValueReferenceTo p lt).rs_type
      = (MappedType.LValueReferenceTo p lt).rs_type :: rsSpine p.rs_type := by
  by_cases hc : p.cc_type.is_const <;>
    simp [MappedType.LValueReferenceTo, rsSpine, rsWrapperNames, hc]

theorem rsSpine_simple (rs cc : String) : rsSpine (MappedType.Simple rs cc).rs_type = [] := by
  simp [MappedType.Simple, rsSpine]

theorem rsSpine_withDeclIds (nm : String) (i j : Nat) :
    rsSpine (MappedType.WithDeclIds nm i nm j).rs_type = [] := by
  simp [MappedType.WithDeclIds, rsSpine]

theorem pointerTo_rs_nullable (p : MappedType) (lt : Option Nat) (nb : Bool) :
    (MappedType.PointerTo p lt nb).rs_type.nullable = nb := by
  by_cases hc : p.cc_type.is_const <;> simp [MappedType.PointerTo, RsType.nullable, hc]

theorem lvalueRefTo_rs_nullable (p : MappedType) (lt : Option Nat) :
    (MappedType.LValueReferenceTo p lt).rs_type.nullable = false := by
  by_cases hc : p.cc_type.is_const <;> simp [MappedType.LValueReferenceTo, RsType.nullable, hc]

theorem pointerTo_rs_lifetime (p : MappedType) (lt : Option Nat) (nb : Bool) :
    (MappedType.PointerTo p lt nb).rs_type.lifetime = lt := by
  by_cases hc : p.cc_type.is_const <;> simp [MappedType.PointerTo, RsType.lifetime, hc]

theorem lvalueRefTo_rs_lifetime (p : MappedType) (lt : Option Nat) :
    (MappedType.LValueReferenceTo p lt).rs_type.lifetime = lt := by
  by_cases hc : p.cc_type.is_const <;> simp [MappedType.LValueReferenceTo, RsType.lifetime, hc]

theorem convertType_false_all_nonnullable : ∀ (q : CType) (known : List Nat)
    (l : Option (List Nat)) (t : MappedType),
    convertType known q l false = .ok t → ∀ r ∈ rsSpine t.rs_type, r.nullable = false := by
  intro q
  induction q with
  | pointer c sp pt ih =>
    intro known l t hconv r hr
    rcases hl : kWellKnownTypes.lookup (CType.pointer c sp pt).spellingOf with _ | rs
    · have hsp : kWellKnownTypes.lookup sp = none := by simpa [CType.spellingOf] using hl
      rcases l with _ | ls
      · obtain ⟨p, hin, rfl⟩ := convertType_pointer_ok_none_inv known c sp pt false t hsp hconv
        rw [setConst_rs, rsSpine_pointerTo, List.mem_cons] at hr
        rcases hr with hr | hr
        · subst hr
          exact pointerTo_rs_nullable p none false
        · have hin2 : convertType known pt none false = .ok p := hin
          exact ih known none p hin2 r hr
      · obtain ⟨p, hne, hin, rfl⟩ :=
          convertType_pointer_ok_some_inv known c sp pt ls false t hsp hconv
        rw [setConst_rs, rsSpine_pointerTo, List.mem_cons] at hr
        rcases hr with hr | hr
        · subst hr
          exact pointerTo_rs_nullable p _ false
        · have hin2 : convertType known pt (some ls.dropLast) false = .ok p := hin
          exact ih known _ p hin2 r hr
    · rw [convertType_lookup_some known _ l false rs hl] at hconv
      cases hconv
      rw [setConst_rs, rsSpine_simple] at hr
      cases hr
  | lvalueRef c sp pt ih =>
    intro known l t hconv r hr
    rcases hl : kWellKnownTypes.lookup (CType.lvalueRef c sp pt).spellingOf with _ | rs
    · have hsp : kWellKnownTypes.lookup sp = none := by simpa [CType.spellingOf] using hl
      rcases l with _ | ls
      · obtain ⟨p, hin, rfl⟩ := convertType_lvalueRef_ok_none_inv known c sp pt false t hsp hconv
        rw [setConst_rs, rsSpine_lvalueRefTo, List.mem_cons] at hr
        rcases hr with hr | hr
        · subst hr
          exact lvalueRefTo_rs_nullable p none
        · have hin2 : convertType known pt none false = .ok p := hin
          exact ih known none p hin2 r hr
      · obtain ⟨p, hne, hin, rfl⟩ :=
          convertType_lvalueRef_ok_some_inv known c sp pt ls false t hsp hconv
        rw [setConst_rs, rsSpine_lvalueRefTo, List.mem_cons] at hr
        rcases hr with hr | hr
        · subst hr
          exact lvalueRefTo_rs_nullable p _
        · have hin2 : convertType known pt (some ls.dropLast) false = .ok p := hin
          exact ih known _ p hin2 r hr
    · rw [convertType_lookup_some known _ l false rs hl] at hconv
      cases hconv
      rw [setConst_rs, rsSpine_simple] at hr
      cases hr
  | builtin c k =>
    intro known l t hconv r hr
    rcases hl : kWellKnownTypes.lookup (CType.builtin c k).spellingOf with _ | rs
    · obtain ⟨rs, cc, rfl, _, _⟩ := convertType_builtin_ok_inv known c k l false t hl hconv
      rw [setConst_rs, rsSpine_simple] at hr
      cases hr
    · rw [convertType_lookup_some known _ l false rs hl] at hconv
      cases hconv
      rw [setConst_rs, rsSpine_simple] at hr
      cases hr
  | tagType c sp declId ident isRec passable =>
    intro known l t hconv r hr
    rcases hl : kWellKnownTypes.lookup (CType.tagType c sp declId ident isRec passable).spellingOf
      with _ | rs
    · have hs : kWellKnownTypes.lookup sp = none := by simpa [CType.spellingOf] using hl
      obtain ⟨nm, _, _, rfl⟩ :=
        convertType_tag_ok_inv known c sp declId ident isRec passable l false t hs hconv
      rw [setConst_rs, rsSpine_withDeclIds] at hr
      cases hr
    · rw [convertType_lookup_some known _ l false rs hl] at hconv
      cases hconv
      rw [setConst_rs, rsSpine_simple] at hr
      cases hr
  | typedefType c sp declId ident =>
    intro known l t hconv r hr
    rcases hl : kWellKnownTypes.lookup (CType.typedefType c sp declId ident).spellingOf
      with _ | rs
    · have hs : kWellKnownTypes.lookup sp = none := by simpa [CType.spellingOf] using hl
      obtain ⟨nm, _, _, rfl⟩ :=
        convertType_typedef_ok_inv known c sp declId ident l false t hs hconv
      rw [setConst_rs, rsSpine_withDeclIds] at hr
      cases hr
    · rw [convertType_lookup_some known _ l false rs hl] at hconv
      cases hconv
      rw [setConst_rs, rsSpine_simple] at hr
      cases hr

/-- Claim C8: the nullable flag affects only the outermost pointer
layer: calling the type mapper with a false flag yields a result whose
every pointer or reference layer is non-nullable; for any flag, every
layer below the outermost is non-nullable, because the recursive
pointee conversions (of pointers and lvalue references alike) are
non-nullable; and on a pointer type the outermost layer records
exactly the caller's flag. -/
theorem c8_nullable_outermost_only :
    (∀ (q : CType) (known : List Nat) (l : Option (List Nat)) (t : MappedType),
      convertType known q l false = .ok t → ∀ r ∈ rsSpine t.rs_type, r.nullable = false)
    ∧ (∀ (q : CType) (known : List Nat) (l : Option (List Nat)) (b : Bool) (t : MappedType),
      convertType known q l b = .ok t → ∀ r ∈ (rsSpine t.rs_type).tail, r.nullable = false)
    ∧ (∀ (c : Bool) (sp : String) (pt : CType) (known : List Nat) (l : Option (List Nat))
        (b : Bool) (t : MappedType), kWellKnownTypes.lookup sp = none →
      convertType known (.pointer c sp pt) l b = .ok t → t.rs_type.nullable = b) := by
  refine ⟨convertType_false_all_nonnullable, ?_, ?_⟩
  · intro q known l b t hconv r hr
    cases q with
    | pointer c sp pt =>
      rcases hl : kWellKnownTypes.lookup (CType.pointer c sp pt).spellingOf with _ | rs
      · have hsp : kWellKnownTypes.lookup sp = none := by simpa [CType.spellingOf] using hl
        rcases l with _ | ls
        · obtain ⟨p, hin, rfl⟩ := convertType_pointer_ok_none_inv known c sp pt b t hsp hconv
          rw [setConst_rs, rsSpine_pointerTo, List.tail_cons] at hr
          have hin2 : convertType known pt none false = .ok p := hin
          exact convertType_false_all_nonnullable pt known none p hin2 r hr
        · obtain ⟨p, hne, hin, rfl⟩ :=
            convertType_pointer_ok_some_inv known c sp pt ls b t hsp hconv
          rw [setConst_rs, rsSpine_pointerTo, List.tail_cons] at hr
          have hin2 : convertType known pt (some ls.dropLast) false = .ok p := hin
          exact convertType_false_all_nonnullable pt known _ p hin2 r hr
      · rw [convertType_lookup_some known _ l b rs hl] at hconv
        cases hconv
        rw [setConst_rs, rsSpine_simple] at hr
        cases hr
    | lvalueRef c sp pt =>
      rcases hl : kWellKnownTypes.lookup (CType.lvalueRef c sp pt).spellingOf with _ | rs
      · have hsp : kWellKnownTypes.lookup sp = none := by simpa [CType.spellingOf] using hl
        rcases l with _ | ls
        · obtain ⟨p, hin, rfl⟩ := convertType_lvalueRef_ok_none_inv known c sp pt b t hsp hconv
          rw [setConst_rs, rsSpine_lvalueRefTo, List.tail_cons] at hr
          have hin2 : convertType known pt none false = .ok p := hin
          exact convertType_false_all_nonnullable pt known none p hin2 r hr
        · obtain ⟨p, hne, hin, rfl⟩ :=
            convertType_lvalueRef_ok_some_inv known c sp pt ls b t hsp hconv
          rw [setConst_rs, rsSpine_lvalueRefTo, List.tail_cons] at hr
          have hin2 : convertType known pt (some ls.dropLast) false = .ok p := hin
          exact convertType_false_all_nonnullable pt known _ p hin2 r hr
      · rw [convertType_lookup_some known _ l b rs hl] at hconv
        cases hconv
        rw [setConst_rs, rsSpine_simple] at hr
        cases hr
    | builtin c k =>
      rcases hl : kWellKnownTypes.lookup (CType.builtin c k).spellingOf with _ | rs
      · obtain ⟨rs, cc, rfl, _, _⟩ := convertType_builtin_ok_inv known c k l b t hl hconv
        rw [setConst_rs, rsSpine_simple] at hr
        cases hr
      · rw [convertType_lookup_some known _ l b rs hl] at hconv
        cases hconv
        rw [setConst_rs, rsSpine_simple] at hr
        cases hr
    | tagType c sp declId ident isRec passable =>
      rcases hl : kWellKnownTypes.lookup
          (CType.tagType c sp declId ident isRec passable).spellingOf with _ | rs
      · have hs : kWellKnownTypes.lookup sp = none := by simpa [CType.spellingOf] using hl
        obtain ⟨nm, _, _, rfl⟩ :=
          convertType_tag_ok_inv known c sp declId ident isRec passable l b t hs hconv
        rw [setConst_rs, rsSpine_withDeclIds] at hr
        cases hr
      · rw [convertType_lookup_some known _ l b rs hl] at hconv
        cases hconv
        rw [setConst_rs, rsSpine_simple] at hr
        cases hr
    | typedefType c sp declId ident =>
      rcases hl : kWellKnownTypes.lookup
          (CType.typedefType c sp declId ident).spellingOf with _ | rs
      · have hs : kWellKnownTypes.lookup sp = none := by simpa [CType.spellingOf] using hl
        obtain ⟨nm, _, _, rfl⟩ :=
          convertType_typedef_ok_inv known c sp declId ident l b t hs hconv
        rw [setConst_rs, rsSpine_withDeclIds] at hr
        cases hr
      · rw [convertType_lookup_some known _ l b rs hl] at hconv
        cases hconv
        rw [setConst_rs, rsSpine_simple] at hr
        cases hr
  · intro c sp pt known l b t hsp hconv
    rcases l with _ | ls
    · obtain ⟨p, _, rfl⟩ := convertType_pointer_ok_none_inv known c sp pt b t hsp hconv
      rw [setConst_rs]
      exact pointerTo_rs_nullable p none b
    · obtain ⟨p, hne, _, rfl⟩ := convertType_pointer_ok_some_inv known c sp pt ls b t hsp hconv
      rw [setConst_rs]
      exact pointerTo_rs_nullable p _ b

theorem c8_nullable_outermost_only_witness :
    (MappedType.setConst false
      (MappedType.PointerTo (MappedType.setConst false (MappedType.Simple "i32" "int"))
        none true)).rs_type.nullable = true :=
  c8_nullable_outermost_only.2.2 false "int *" intTypeFixture [] none true _ (by rfl) (by rfl)

theorem numLayers_of_lookup_none_pointer (c : Bool) (sp : String) (pt : CType)
    (h : kWellKnownTypes.lookup sp = none) :
    numLayers (.pointer c sp pt) = numLayers pt + 1 := by
  rw [numLayers.eq_def]
  simp [CType.spellingOf, h]

theorem numLayers_of_lookup_none_lvalueRef (c : Bool) (sp : String) (pt : CType)
    (h : kWellKnownTypes.lookup sp = none) :
    numLayers (.lvalueRef c sp pt) = numLayers pt + 1 := by
  rw [numLayers.eq_def]
  simp [CType.spellingOf, h]

theorem numLayers_of_lookup_some (q : CType) (rs : String)
    (h : kWellKnownTypes.lookup q.spellingOf = some rs) : numLayers q = 0 := by
  rw [numLayers.eq_def]
  simp [h]

theorem numLayers_leaf (q : CType)
    (h : ∀ c sp pt, q ≠ .pointer c sp pt ∧ q ≠ .lvalueRef c sp pt) : numLayers q = 0 := by
  rw [numLayers.eq_def]
  cases q with
  | pointer c sp pt => exact absurd rfl (h c sp pt).1
  | lvalueRef c sp pt => exact absurd rfl (h c sp pt).2
  | builtin c k => split <;> rfl
  | tagType c sp d i r p => split <;> rfl
  | typedefType c sp d i => split <;> rfl

theorem reverse_eq_getLast_cons (l : List Nat) (h : l ≠ []) :
    l.reverse = l.getLast h :: l.dropLast.reverse := by
  conv_lhs => rw [← List.dropLast_append_getLast h]
  simp

/-- Claim C10: whenever ConvertType is handed a lifetime stack whose
length is at least the number of pointer and lvalue-reference layers of
the type, the emptiness CHECK never aborts, and a successful conversion
pops exactly one lifetime id from the back of the stack per layer,
outermost layer first. -/
theorem c10_lifetime_stack_consumption : ∀ (q : CType) (known : List Nat) (l : List Nat)
    (b : Bool), numLayers q ≤ l.length →
    convertType known q (some l) b ≠ .checkFail
    ∧ ∀ t, convertType known q (some l) b = .ok t →
        (rsSpine t.rs_type).map RsType.lifetime = (l.reverse.take (numLayers q)).map some := by
  intro q
  induction q with
  | pointer c sp pt ih =>
    intro known l b hlen
    rcases hl : kWellKnownTypes.lookup (CType.pointer c sp pt).spellingOf with _ | rs
    · have hsp : kWellKnownTypes.lookup sp = none := by simpa [CType.spellingOf] using hl
      have hnum : numLayers (.pointer c sp pt) = numLayers pt + 1 :=
        numLayers_of_lookup_none_pointer c sp pt hsp
      rw [hnum] at hlen
      have hne : l ≠ [] := by
        intro hcontra
        subst hcontra
        simp at hlen
      have hlen2 : numLayers pt ≤ l.dropLast.length := by
        rw [List.length_dropLast]
        omega
      have ihd := ih known l.dropLast ccNullableDefault hlen2
      constructor
      · rw [convertType_pointer_consStack known c sp pt b l hne hsp]
        rcases hin : convertType known pt (some l.dropLast) ccNullableDefault with p | m | _
        · simp
        · simp
        · exact absurd hin ihd.1
      · intro t hconv
        obtain ⟨p, hne2, hin, rfl⟩ :=
          convertType_pointer_ok_some_inv known c sp pt l b t hsp hconv
        rw [setConst_rs, rsSpine_pointerTo, hnum]
        rw [List.map_cons, pointerTo_rs_lifetime, ihd.2 p hin]
        rw [reverse_eq_getLast_cons l hne, List.take_succ_cons, List.map_cons]
    · have hnum := numLayers_of_lookup_some _ rs hl
      constructor
      · rw [convertType_lookup_some known _ (some l) b rs hl]
        simp
      · intro t hconv
        rw [convertType_lookup_some known _ (some l) b rs hl] at hconv
        cases hconv
        rw [setConst_rs, rsSpine_simple, hnum]
        simp
  | lvalueRef c sp pt ih =>
    intro known l b hlen
    rcases hl : kWellKnownTypes.lookup (CType.lvalueRef c sp pt).spellingOf with _ | rs
    · have hsp : kWellKnownTypes.lookup sp = none := by simpa [CType.spellingOf] using hl
      have hnum : numLayers (.lvalueRef c sp pt) = numLayers pt + 1 :=
        numLayers_of_lookup_none_lvalueRef c sp pt hsp
      rw [hnum] at hlen
      have hne : l ≠ [] := by
        intro hcontra
        subst hcontra
        simp at hlen
      have hlen2 : numLayers pt ≤ l.dropLast.length := by
        rw [List.length_dropLast]
        omega
      have ihd := ih known l.dropLast ccNullableDefault hlen2
      constructor
      · rw [convertType_lvalueRef_consStack known c sp pt b l hne hsp]
        rcases hin : convertType known pt (some l.dropLast) ccNullableDefault with p | m | _
        · simp
        · simp
        · exact absurd hin ihd.1
      · intro t hconv
        obtain ⟨p, hne2, hin, rfl⟩ :=
          convertType_lvalueRef_ok_some_inv known c sp pt l b t hsp hconv
        rw [setConst_rs, rsSpine_lvalueRefTo, hnum]
        rw [List.map_cons, lvalueRefTo_rs_lifetime, ihd.2 p hin]
        rw [reverse_eq_getLast_cons l hne, List.take_succ_cons, List.map_cons]
    · have hnum := numLayers_of_lookup_some _ rs hl
      constructor
      · rw [convertType_lookup_some known _ (some l) b rs hl]
        simp
      · intro t hconv
        rw [convertType_lookup_some known _ (some l) b rs hl] at hconv
        cases hconv
        rw [setConst_rs, rsSpine_simple, hnum]
        simp
  | builtin c k =>
    intro known l b _
    rcases hl : kWellKnownTypes.lookup (CType.builtin c k).spellingOf with _ | rs
    · have hnum : numLayers (.builtin c k) = 0 := numLayers_leaf _ (by intro a b2 c2; simp)
      constructor
      · cases k with
        | boolK =>
          rw [convertType_boolK known c (some l) b (by simpa [CType.spellingOf] using hl)]
          simp
        | floatK =>
          rw [convertType_floatK known c (some l) b (by simpa [CType.spellingOf] using hl)]
          simp
        | doubleK =>
          rw [convertType_doubleK known c (some l) b (by simpa [CType.spellingOf] using hl)]
          simp
        | voidK =>
          rw [convertType_voidK known c (some l) b (by simpa [CType.spellingOf] using hl)]
          simp
        | integer s sg w =>
          rw [convertType_integer known c s sg w (some l) b
            (by simpa [CType.spellingOf] using hl)]
          split <;> simp
        | otherB s =>
          rw [convertType_otherB known c s (some l) b (by simpa [CType.spellingOf] using hl)]
          simp
      · intro t hconv
        obtain ⟨rs, cc, rfl, _, _⟩ := convertType_builtin_ok_inv known c k (some l) b t hl hconv
        rw [setConst_rs, rsSpine_simple, hnum]
        simp
    · have hnum := numLayers_of_lookup_some _ rs hl
      constructor
      · rw [convertType_lookup_some known _ (some l) b rs hl]
        simp
      · intro t hconv
        rw [convertType_lookup_some known _ (some l) b rs hl] at hconv
        cases hconv
        rw [setConst_rs, rsSpine_simple, hnum]
        simp
  | tagType c sp declId ident isRec passable =>
    intro known l b _
    rcases hl : kWellKnownTypes.lookup
        (CType.tagType c sp declId ident isRec passable).spellingOf with _ | rs
    · have hs : kWellKnownTypes.lookup sp = none := by simpa [CType.spellingOf] using hl
      have hnum : numLayers (.tagType c sp declId ident isRec passable) = 0 :=
        numLayers_leaf _ (by intro a b2 c2; simp)
      constructor
      · rw [convertType_tag known c sp declId ident isRec passable (some l) b hs]
        rcases ident with _ | nm <;> split <;> simp
      · intro t hconv
        obtain ⟨nm, _, _, rfl⟩ :=
          convertType_tag_ok_inv known c sp declId ident isRec passable (some l) b t hs hconv
        rw [setConst_rs, rsSpine_withDeclIds, hnum]
        simp
    · have hnum := numLayers_of_lookup_some _ rs hl
      constructor
      · rw [convertType_lookup_some known _ (some l) b rs hl]
        simp
      · intro t hconv
        rw [convertType_lookup_some known _ (some l) b rs hl] at hconv
        cases hconv
        rw [setConst_rs, rsSpine_simple, hnum]
        simp
  | typedefType c sp declId ident =>
    intro known l b _
    rcases hl : kWellKnownTypes.lookup
        (CType.typedefType c sp declId ident).spellingOf with _ | rs
    · have hs : kWellKnownTypes.lookup sp = none := by simpa [CType.spellingOf] using hl
      have hnum : numLayers (.typedefType c sp declId ident) = 0 :=
        numLayers_leaf _ (by intro a b2 c2; simp)
      constructor
      · rw [convertType_typedef known c sp declId ident (some l) b hs]
        rcases ident with _ | nm <;> split <;> simp
      · intro t hconv
        obtain ⟨nm, _, _, rfl⟩ :=
          convertType_typedef_ok_inv known c sp declId ident (some l) b t hs hconv
        rw [setConst_rs, rsSpine_withDeclIds, hnum]
        simp
    · have hnum := numLayers_of_lookup_some _ rs hl
      constructor
      · rw [convertType_lookup_some known _ (some l) b rs hl]
        simp
      · intro t hconv
        rw [convertType_lookup_some known _ (some l) b rs hl] at hconv
        cases hconv
        rw [setConst_rs, rsSpine_simple, hnum]
        simp

theorem c10_lifetime_stack_consumption_witness :
    numLayers (CType.pointer false "int *" intTypeFixture) ≤ [7].length
    ∧ convertType [] (CType.pointer false "int *" intTypeFixture) (some [7]) true
        ≠ ConvResult.checkFail
    ∧ (rsSpine (MappedType.setConst false
        (MappedType.PointerTo (MappedType.setConst false (MappedType.Simple "i32" "int"))
          (some 7) true)).rs_type).map RsType.lifetime = [some 7] := by
  refine ⟨by decide, ?_, ?_⟩
  · exact (c10_lifetime_stack_consumption (CType.pointer false "int *" intTypeFixture)
      [] [7] true (by decide)).1
  · have h := (c10_lifetime_stack_consumption (CType.pointer false "int *" intTypeFixture)
      [] [7] true (by decide)).2 _ (by rfl)
    simpa using h

theorem appendBucket_nil_batch (m : List (Nat × List Item)) (c : Nat) :
    appendBucket m c [] = m := by
  rw [appendBucket.eq_def]
  rfl

theorem bucketOf_nil (c : Nat) : bucketOf [] c = [] := rfl

theorem bucketOf_of_not_contains (m : List (Nat × List Item)) (c : Nat)
    (h : containsKey m c = false) : bucketOf m c = [] := by
  unfold containsKey at h
  unfold bucketOf
  rcases hl : List.lookup c m with _ | v
  · rfl
  · rw [hl] at h
    simp at h

theorem bucketOf_appendBucket : ∀ (m : List (Nat × List Item)) (c : Nat) (its : List Item)
    (d : Nat), bucketOf (appendBucket m c its) d
      = if d = c then bucketOf m d ++ its else bucketOf m d := by
  intro m c its
  rcases its with _ | ⟨i, is⟩
  · intro d
    rw [appendBucket_nil_batch]
    split <;> simp
  · induction m with
    | nil =>
      intro d
      rw [appendBucket.eq_def]
      by_cases hd : d = c
      · subst hd
        simp [bucketOf, List.lookup]
      · have hb : (d == c) = false := by simp [hd]
        simp [bucketOf, List.lookup, hb, hd]
    | cons e m1 ih =>
      intro d
      obtain ⟨k, v⟩ := e
      rw [appendBucket.eq_def]
      simp only [List.isEmpty_cons, Bool.false_eq_true, if_false]
      by_cases hk : k = c
      · subst hk
        rw [if_pos rfl]
        by_cases hd : d = k
        · subst hd
          simp [bucketOf, List.lookup]
        · have hb : (d == k) = false := by simp [hd]
          simp [bucketOf, List.lookup, hb, hd]
      · rw [if_neg hk]
        by_cases hd : d = k
        · subst hd
          have hne : ¬ d = c := hk
          simp [bucketOf, List.lookup, hne]
        · have hb : (d == k) = false := by simp [hd]
          simp only [bucketOf, List.lookup, hb]
          simpa [bucketOf] using ih d

theorem majorCount_append (l1 l2 : List Item) :
    majorCount (l1 ++ l2) = majorCount l1 + majorCount l2 := by
  simp [majorCount, List.countP_append]

theorem majorCount_of_unsup (l : List Item) (h : ∀ it ∈ l, it.isUnsupportedItem = true) :
    majorCount l = 0 := by
  unfold majorCount
  rw [List.countP_eq_zero]
  intro it hit
  have := h it hit
  cases it <;> simp [Item.isMajor] <;> simp [Item.isUnsupportedItem] at this

theorem thisParamStep_unsup (known : List Nat) (f : FunctionDeclInfo)
    (r : List Item × List FuncParam × Bool) (h : thisParamStep known f = some r) :
    ∀ it ∈ r.1, it.isUnsupportedItem = true := by
  unfold thisParamStep at h
  rcases hm : f.method with _ | m <;> rw [hm] at h <;> dsimp only at h
  · cases h
    simp
  · by_cases hi : m.isInstance
    · rw [if_pos hi] at h
      rcases hc : convertType known m.thisType (f.lifetimes.map FunctionLifetimes.thisLifetimes)
          false with p | msg | _ <;> rw [hc] at h <;> dsimp only at h
      · cases h
        simp
      · cases h
        intro it hit
        simp only [List.mem_singleton] at hit
        subst hit
        simp [Item.isUnsupportedItem]
      · cases h
    · rw [if_neg hi] at h
      cases h
      simp

theorem paramsStep_unsup (known : List Nat) (lf : Option FunctionLifetimes)
    (qn : String) : ∀ (ps : List ParamInfo) (i : Nat) (r : List Item × List FuncParam × Bool),
    paramsStep known lf qn ps i = some r → ∀ it ∈ r.1, it.isUnsupportedItem = true := by
  intro ps
  induction ps with
  | nil =>
    intro i r h
    cases h
    simp
  | cons p rest ih =>
    intro i r h
    unfold paramsStep at h
    rcases hc : convertType known p.type (paramLifetimesAt lf i)
        ccNullableDefault with t | msg | _ <;> rw [hc] at h <;> dsimp only at h
    · rcases hrec : paramsStep known lf qn rest (i + 1) with _ | r2 <;> rw [hrec] at h
      · cases h
      · cases h
        intro it hit
        simp only [List.mem_append] at hit
        rcases hit with hit | hit
        · by_cases hp : byValuePassOk p.type
          · rw [if_pos hp] at hit
            cases hit
          · rw [if_neg hp] at hit
            simp only [List.mem_singleton] at hit
            subst hit
            simp [Item.isUnsupportedItem]
        · exact ih (i + 1) r2 hrec it hit
    · rcases hrec : paramsStep known lf qn rest (i + 1) with _ | r2 <;> rw [hrec] at h
      · cases h
      · cases h
        intro it hit
        simp only [List.mem_cons] at hit
        rcases hit with hit | hit
        · subst hit
          simp [Item.isUnsupportedItem]
        · exact ih (i + 1) r2 hrec it hit
    · cases h

theorem returnRecordCheck_unsup (f : FunctionDeclInfo) :
    ∀ it ∈ (returnRecordCheck f).1, it.isUnsupportedItem = true := by
  unfold returnRecordCheck
  by_cases hp : byValuePassOk f.returnType
  · rw [if_pos hp]
    simp
  · rw [if_neg hp]
    intro it hit
    simp only [List.mem_singleton] at hit
    subst hit
    simp [Item.isUnsupportedItem]

theorem returnConvStep_unsup (known : List Nat) (f : FunctionDeclInfo)
    (r : List Item × Option MappedType) (h : returnConvStep known f = some r) :
    ∀ it ∈ r.1, it.isUnsupportedItem = true := by
  unfold returnConvStep at h
  rcases hc : convertType known f.returnType (f.lifetimes.map FunctionLifetimes.returnLifetimes)
      ccNullableDefault with t | msg | _ <;> rw [hc] at h <;> dsimp only at h
  · cases h
    simp
  · cases h
    intro it hit
    simp only [List.mem_singleton] at hit
    subst hit
    simp [Item.isUnsupportedItem]
  · cases h

theorem functionDeclItems_cases (known : List Nat) (f : FunctionDeclInfo) (its : List Item)
    (h : functionDeclItems known f = some its) :
    (∀ it ∈ its, it.isUnsupportedItem = true)
    ∨ ∃ base fn, its = base ++ [Item.func fn] ∧ ∀ it ∈ base, it.isUnsupportedItem = true := by
  unfold functionDeclItems at h
  rcases h0 : thisParamStep known f with _ | ⟨items0, params0, ok0⟩ <;> rw [h0] at h <;>
    dsimp only at h
  · cases h
  · by_cases hcnt : lifetimesCountOk f
    · rw [if_pos hcnt] at h
      rcases h1 : paramsStep known f.lifetimes f.qualifiedName f.params 0
          with _ | ⟨items1, params1, ok1⟩ <;> rw [h1] at h <;> dsimp only at h
      · cases h
      · rcases h3 : returnConvStep known f with _ | ⟨items3, rtOpt⟩ <;> rw [h3] at h <;>
          dsimp only at h
        · cases h
        · have hbase : ∀ it ∈ items0 ++ items1 ++ (returnRecordCheck f).1 ++ items3,
              it.isUnsupportedItem = true := by
            intro it hit
            simp only [List.mem_append] at hit
            rcases hit with ((hit | hit) | hit) | hit
            · exact thisParamStep_unsup known f _ h0 it hit
            · exact paramsStep_unsup known f.lifetimes f.qualifiedName f.params 0 _ h1 it hit
            · exact returnRecordCheck_unsup f it hit
            · exact returnConvStep_unsup known f _ h3 it hit
          by_cases hnp : (match f.method with
              | some m => m.access != AccessSpec.pub
              | none => false) = true
          · rw [if_pos hnp] at h
            cases h
            exact Or.inl hbase
          · rw [if_neg hnp] at h
            rcases rtOpt with _ | rt
            · cases h
              exact Or.inl hbase
            · rcases hnm : getTranslatedName f.nameKind with _ | nm <;> rw [hnm] at h <;>
                dsimp only at h
              · cases h
                exact Or.inl hbase
              · by_cases hok : (ok0 && ok1 && (returnRecordCheck f).2) = true
                · rw [if_pos hok] at h
                  cases h
                  exact Or.inr ⟨_, _, rfl, hbase⟩
                · rw [if_neg hok] at h
                  cases h
                  exact Or.inl hbase
    · rw [if_neg hcnt] at h
      cases h

theorem functionDeclItems_major (known : List Nat) (f : FunctionDeclInfo) (its : List Item)
    (h : functionDeclItems known f = some its) : majorCount its ≤ 1 := by
  rcases functionDeclItems_cases known f its h with hall | ⟨base, fn, rfl, hbase⟩
  · rw [majorCount_of_unsup its hall]
    omega
  · rw [majorCount_append, majorCount_of_unsup base hbase]
    simp [majorCount, Item.isMajor]

theorem visitFunctionDecl_effect (s : VState) (f : FunctionDeclInfo) (s1 : VState)
    (h : visitFunctionDecl s f = some s1) :
    ∃ its, majorCount its ≤ 1 ∧ s1.seenDecls = appendBucket s.seenDecls f.canonicalId its
      ∧ s1.known = s.known ∧ s1.commentTrail = s.commentTrail := by
  unfold visitFunctionDecl at h
  by_cases h1 : f.fromCurrentTarget
  · rw [h1] at h
    simp only [Bool.not_true, Bool.false_eq_true, if_false] at h
    by_cases h2 : f.isDeleted
    · rw [if_pos h2] at h
      cases h
      exact ⟨[], by simp [majorCount], by rw [appendBucket_nil_batch], rfl, rfl⟩
    · rw [if_neg h2] at h
      rcases hfi : functionDeclItems s.known f with _ | its <;> rw [hfi] at h <;>
        dsimp only [Option.map] at h
      · cases h
      · cases h
        exact ⟨its, functionDeclItems_major s.known f its hfi, rfl, rfl, rfl⟩
  · simp only [Bool.not_eq_true] at h1
    rw [h1] at h
    simp only [Bool.not_false, if_true] at h
    cases h
    exact ⟨[], by simp [majorCount], by rw [appendBucket_nil_batch], rfl, rfl⟩

theorem pushUnsupported_effect (s : VState) (c : Nat) (qn msg : String) (loc : Option Nat)
    (fct : Bool) :
    ∃ its, majorCount its = 0
      ∧ (pushUnsupported s c qn msg loc fct).seenDecls = appendBucket s.seenDecls c its
      ∧ (pushUnsupported s c qn msg loc fct).known = s.known
      ∧ (pushUnsupported s c qn msg loc fct).commentTrail = s.commentTrail := by
  refine ⟨if fct then [.unsupported qn msg loc] else [], ?_, rfl, rfl, rfl⟩
  by_cases hf : fct
  · rw [if_pos hf]
    simp [majorCount, Item.isMajor]
  · rw [if_neg hf]
    simp [majorCount]

theorem visitRecordDecl_effect (s : VState) (r : RecordDeclInfo) (s1 : VState)
    (h : visitRecordDecl s r = some s1) :
    ∃ its, majorCount its ≤ 1 ∧ s1.seenDecls = appendBucket s.seenDecls r.canonicalId its
      ∧ s1.commentTrail = s.commentTrail := by
  unfold visitRecordDecl at h
  dsimp only at h
  split at h
  · cases h
    exact ⟨[], by simp [majorCount], by rw [appendBucket_nil_batch], rfl⟩
  · split at h
    · cases h
      obtain ⟨its, hm, hs, _, hc⟩ := pushUnsupported_effect s r.canonicalId r.qualifiedName
        "Nested classes are not supported yet" r.beginLoc r.fromCurrentTarget
      exact ⟨its, by omega, hs, hc⟩
    · split at h
      · cases h
        obtain ⟨its, hm, hs, _, hc⟩ := pushUnsupported_effect s r.canonicalId r.qualifiedName
          "Unions are not supported yet" r.beginLoc r.fromCurrentTarget
        exact ⟨its, by omega, hs, hc⟩
      · split at h
        · cases h
          exact ⟨[], by simp [majorCount], by rw [appendBucket_nil_batch], rfl⟩
        · split at h
          · cases h
            obtain ⟨its, hm, hs, _, hc⟩ := pushUnsupported_effect s r.canonicalId r.qualifiedName
              "Class templates are not supported yet" r.beginLoc r.fromCurrentTarget
            exact ⟨its, by omega, hs, hc⟩
          · split at h
            · cases h
              exact ⟨[], by simp [majorCount], by rw [appendBucket_nil_batch], rfl⟩
            · split at h
              · cases h
              · next msg loc heq =>
                cases h
                obtain ⟨its, hm, hs, _, hc⟩ := pushUnsupported_effect
                  { s with known := eraseKnown r.declId (insertKnown r.declId s.known) }
                  r.canonicalId r.qualifiedName msg loc r.fromCurrentTarget
                exact ⟨its, by omega, hs, hc⟩
              · next fs heq =>
                cases h
                refine ⟨[mkRecordItem r r.name fs], ?_, rfl, rfl⟩
                simp [majorCount, mkRecordItem, Item.isMajor]

theorem visitTypedefNameDecl_effect (s : VState) (t : TypedefDeclInfo) (s1 : VState)
    (h : visitTypedefNameDecl s t = some s1) :
    ∃ its, majorCount its ≤ 1 ∧ s1.seenDecls = appendBucket s.seenDecls t.canonicalId its
      ∧ s1.commentTrail = s.commentTrail := by
  unfold visitTypedefNameDecl at h
  dsimp only at h
  split at h
  · cases h
    exact ⟨[], by simp [majorCount], by rw [appendBucket_nil_batch], rfl⟩
  · split at h
    · cases h
      obtain ⟨its, hm, hs, _, hc⟩ := pushUnsupported_effect s t.canonicalId t.qualifiedName
        "Typedefs nested in classes are not supported yet" t.beginLoc t.fromCurrentTarget
      exact ⟨its, by omega, hs, hc⟩
    · split at h
      · cases h
        exact ⟨[], by simp [majorCount], by rw [appendBucket_nil_batch], rfl⟩
      · split at h
        · cases h
        · rcases hc : convertType s.known t.underlying none ccNullableDefault
              with u | msg | _ <;> rw [hc] at h
          · cases h
            refine ⟨[.typeAlias ⟨t.name, t.declId, t.owningTarget, u⟩], ?_, rfl, rfl⟩
            simp [majorCount, Item.isMajor]
          · cases h
            obtain ⟨its, hm, hs, _, hcc⟩ := pushUnsupported_effect s t.canonicalId
              t.qualifiedName (statusToString msg) t.beginLoc t.fromCurrentTarget
            exact ⟨its, by omega, hs, hcc⟩
          · cases h

theorem traverseDecl_preserves (s : VState) (d : DeclInfo) (s1 : VState)
    (h : traverseDecl s d = some s1)
    (hinv : ∀ c, majorCount (bucketOf s.seenDecls c) ≤ 1) :
    ∀ c, majorCount (bucketOf s1.seenDecls c) ≤ 1 := by
  unfold traverseDecl at h
  by_cases hskip : (containsKey s.seenDecls d.canonicalId && !d.isNamespace) = true
  · rw [if_pos hskip] at h
    cases h
    exact hinv
  · rw [if_neg hskip] at h
    by_cases hctx : d.ctxNamespace
    · rw [if_pos hctx] at h
      cases h
      obtain ⟨its, hm, hs, _, _⟩ := pushUnsupported_effect s d.canonicalId d.qualifiedName
        "Items contained in namespaces are not supported yet" d.beginLoc d.fromCurrentTarget
      intro c
      rw [hs, bucketOf_appendBucket]
      split
      · rw [majorCount_append, hm]
        have := hinv c
        omega
      · exact hinv c
    · rw [if_neg hctx] at h
      have hcomment : (commentManagerStep s d).seenDecls = s.seenDecls := rfl
      cases d with
      | funcD f =>
        obtain ⟨its, hm, hs, _, _⟩ := visitFunctionDecl_effect _ f s1 h
        rw [hcomment] at hs
        have hck : containsKey s.seenDecls f.canonicalId = false := by
          simp only [DeclInfo.isNamespace, Bool.not_false, Bool.and_true] at hskip
          simpa [DeclInfo.canonicalId] using hskip
        intro c
        rw [hs, bucketOf_appendBucket]
        split
        · next hc =>
          subst hc
          rw [bucketOf_of_not_contains _ _ hck]
          simpa using hm
        · exact hinv c
      | recordD r =>
        obtain ⟨its, hm, hs, _⟩ := visitRecordDecl_effect _ r s1 h
        rw [hcomment] at hs
        have hck : containsKey s.seenDecls r.canonicalId = false := by
          simp only [DeclInfo.isNamespace, Bool.not_false, Bool.and_true] at hskip
          simpa [DeclInfo.canonicalId] using hskip
        intro c
        rw [hs, bucketOf_appendBucket]
        split
        · next hc =>
          subst hc
          rw [bucketOf_of_not_contains _ _ hck]
          simpa using hm
        · exact hinv c
      | typedefD t =>
        obtain ⟨its, hm, hs, _⟩ := visitTypedefNameDecl_effect _ t s1 h
        rw [hcomment] at hs
        have hck : containsKey s.seenDecls t.canonicalId = false := by
          simp only [DeclInfo.isNamespace, Bool.not_false, Bool.and_true] at hskip
          simpa [DeclInfo.canonicalId] using hskip
        intro c
        rw [hs, bucketOf_appendBucket]
        split
        · next hc =>
          subst hc
          rw [bucketOf_of_not_contains _ _ hck]
          simpa using hm
        · exact hinv c
      | namespaceD n =>
        cases h
        exact hinv
      | otherD o =>
        cases h
        exact hinv

/-- Claim C2: a declaration whose canonical declaration already has
registered items is skipped without any state change (no importer, no
comment manager), unless it is a namespace; consequently a whole
traversal from the initial state registers at most one Func, Record or
TypeAlias item per canonical declaration. -/
theorem c2_traverse_dedup :
    (∀ (s : VState) (d : DeclInfo), containsKey s.seenDecls d.canonicalId = true →
      d.isNamespace = false → traverseDecl s d = some s)
    ∧ (∀ (ds : List DeclInfo) (s2 : VState), traverseDecls initialVState ds = some s2 →
      ∀ c, majorCount (bucketOf s2.seenDecls c) ≤ 1) := by
  constructor
  · intro s d h1 h2
    unfold traverseDecl
    rw [if_pos (by rw [h1, h2]; rfl)]
  · have key : ∀ (ds : List DeclInfo) (s s2 : VState), traverseDecls s ds = some s2 →
        (∀ c, majorCount (bucketOf s.seenDecls c) ≤ 1) →
        ∀ c, majorCount (bucketOf s2.seenDecls c) ≤ 1 := by
      intro ds
      induction ds with
      | nil =>
        intro s s2 h hinv
        cases h
        exact hinv
      | cons d ds ih =>
        intro s s2 h hinv
        unfold traverseDecls at h
        rcases hstep : traverseDecl s d with _ | s1 <;> rw [hstep] at h
        · cases h
        · exact ih s1 s2 h (traverseDecl_preserves s d s1 hstep hinv)
    intro ds s2 h
    refine key ds initialVState s2 h ?_
    intro c
    simp [initialVState, bucketOf, majorCount, List.lookup]

theorem c2_traverse_dedup_witness :
    traverseDecl ⟨[(0, [Item.commentItem "c"])], [], []⟩
        (DeclInfo.otherD ⟨0, "n", true, none, false⟩)
      = some ⟨[(0, [Item.commentItem "c"])], [], []⟩
    ∧ majorCount (bucketOf
        (⟨[(1, [Item.unsupported "S"
            ("Field type " ++ sq ++ "X" ++ sq ++ " is not supported") none])], [],
          [1]⟩ : VState).seenDecls 1) ≤ 1 := by
  constructor
  · exact c2_traverse_dedup.1 _ _ (by rfl) (by rfl)
  · exact c2_traverse_dedup.2 [DeclInfo.recordD recordBadFieldFixture] _ (by rfl) 1

theorem eraseKnown_insertKnown (c : Nat) (l : List Nat) (h : c ∉ l) :
    eraseKnown c (insertKnown c l) = l := by
  unfold insertKnown eraseKnown
  rw [if_neg h, List.filter_append]
  have h1 : l.filter (fun x => decide (x ≠ c)) = l := by
    apply List.filter_eq_self.mpr
    intro a ha
    simp only [decide_eq_true_eq]
    intro hac
    exact h (hac ▸ ha)
  rw [h1]
  simp

/-- Claim C6 (amended): for a record that reaches field translation,
a field failure retracts the provisional known_type_decls entry (the
set returns to its prior value) and emits no Record item for the
record — an UnsupportedItem describing the failing field is registered
instead when the record is from the current target; when all fields
succeed, the provisional entry persists and exactly one Record item is
registered.  known_type_decls changes only by this insert or its
retraction. -/
theorem c6_record_field_failure_policy (s : VState) (r : RecordDeclInfo)
    (h1 : r.ctxFunctionOrMethod = false) (h2 : r.ctxRecord = false)
    (h3 : r.isUnion = false) (h4 : r.hasCompleteDefinition = true)
    (h5 : (r.isCxx && r.isClassTemplateOrSpec) = false) (h6 : ¬ r.name = "")
    (h7 : r.declId ∉ s.known) :
    (∀ msg loc,
      importFieldsAux (insertKnown r.declId s.known) (recordDefaultAccess r) r.fields
        = .failed msg loc →
      visitRecordDecl s r = some
        ⟨appendBucket s.seenDecls r.canonicalId
          (if r.fromCurrentTarget then [.unsupported r.qualifiedName msg loc] else []),
          s.known, s.commentTrail⟩)
    ∧ (∀ fs,
      importFieldsAux (insertKnown r.declId s.known) (recordDefaultAccess r) r.fields
        = .fieldsOk fs →
      visitRecordDecl s r = some
        ⟨appendBucket s.seenDecls r.canonicalId [mkRecordItem r r.name fs],
          insertKnown r.declId s.known, s.commentTrail⟩) := by
  constructor
  · intro msg loc himp
    unfold visitRecordDecl
    rw [if_neg (by rw [h1]; simp), if_neg (by rw [h2]; simp), if_neg (by rw [h3]; simp),
      if_neg (by rw [h4]; simp), if_neg (by rw [h5]; simp), if_neg h6]
    dsimp only
    rw [himp]
    unfold pushUnsupported
    rw [eraseKnown_insertKnown r.declId s.known h7]
  · intro fs himp
    unfold visitRecordDecl
    rw [if_neg (by rw [h1]; simp), if_neg (by rw [h2]; simp), if_neg (by rw [h3]; simp),
      if_neg (by rw [h4]; simp), if_neg (by rw [h5]; simp), if_neg h6]
    dsimp only
    rw [himp]

theorem c6_record_field_failure_policy_witness :
    visitRecordDecl initialVState recordBadFieldFixture = some
      ⟨appendBucket ([] : List (Nat × List Item)) 1
        [Item.unsupported "S" ("Field type " ++ sq ++ "X" ++ sq ++ " is not supported") none],
        [], []⟩ := by
  have h := (c6_record_field_failure_policy initialVState recordBadFieldFixture
    rfl rfl rfl rfl rfl (by decide) (by simp [initialVState])).1
    ("Field type " ++ sq ++ "X" ++ sq ++ " is not supported") none (by rfl)
  simpa [recordBadFieldFixture, initialVState] using h

theorem c6_counterexample :
    (visitRecordDecl initialVState recordBadFieldFixture).map
      (fun s2 => ((bucketOf s2.seenDecls 1).countP (fun it => it.isUnsupportedItem),
        s2.known))
      = some (1, []) := by rfl

theorem functionDeclItems_nonpublic (known : List Nat) (f : FunctionDeclInfo)
    (m : MethodInfo) (its : List Item) (hm : f.method = some m)
    (ha : m.access ≠ AccessSpec.pub) (h : functionDeclItems known f = some its) :
    ∀ it ∈ its, it.isUnsupportedItem = true := by
  unfold functionDeclItems at h
  rcases h0 : thisParamStep known f with _ | ⟨items0, params0, ok0⟩ <;> rw [h0] at h <;>
    dsimp only at h
  · cases h
  · by_cases hcnt : lifetimesCountOk f
    · rw [if_pos hcnt] at h
      rcases h1 : paramsStep known f.lifetimes f.qualifiedName f.params 0
          with _ | ⟨items1, params1, ok1⟩ <;> rw [h1] at h <;> dsimp only at h
      · cases h
      · rcases h3 : returnConvStep known f with _ | ⟨items3, rtOpt⟩ <;> rw [h3] at h <;>
          dsimp only at h
        · cases h
        · rw [if_pos (by rw [hm]; simpa using ha)] at h
          cases h
          intro it hit
          simp only [List.mem_append] at hit
          rcases hit with ((hit | hit) | hit) | hit
          · exact thisParamStep_unsup known f _ h0 it hit
          · exact paramsStep_unsup known f.lifetimes f.qualifiedName f.params 0 _ h1 it hit
          · exact returnRecordCheck_unsup f it hit
          · exact returnConvStep_unsup known f _ h3 it hit
    · rw [if_neg hcnt] at h
      cases h

theorem functionDeclItems_name_none (known : List Nat) (f : FunctionDeclInfo)
    (its : List Item) (hname : getTranslatedName f.nameKind = none)
    (h : functionDeclItems known f = some its) :
    ∀ it ∈ its, it.isUnsupportedItem = true := by
  unfold functionDeclItems at h
  rcases h0 : thisParamStep known f with _ | ⟨items0, params0, ok0⟩ <;> rw [h0] at h <;>
    dsimp only at h
  · cases h
  · by_cases hcnt : lifetimesCountOk f
    · rw [if_pos hcnt] at h
      rcases h1 : paramsStep known f.lifetimes f.qualifiedName f.params 0
          with _ | ⟨items1, params1, ok1⟩ <;> rw [h1] at h <;> dsimp only at h
      · cases h
      · rcases h3 : returnConvStep known f with _ | ⟨items3, rtOpt⟩ <;> rw [h3] at h <;>
          dsimp only at h
        · cases h
        · have hbase : ∀ it ∈ items0 ++ items1 ++ (returnRecordCheck f).1 ++ items3,
              it.isUnsupportedItem = true := by
            intro it hit
            simp only [List.mem_append] at hit
            rcases hit with ((hit | hit) | hit) | hit
            · exact thisParamStep_unsup known f _ h0 it hit
            · exact paramsStep_unsup known f.lifetimes f.qualifiedName f.params 0 _ h1 it hit
            · exact returnRecordCheck_unsup f it hit
            · exact returnConvStep_unsup known f _ h3 it hit
          by_cases hnp : (match f.method with
              | some m => m.access != AccessSpec.pub
              | none => false) = true
          · rw [if_pos hnp] at h
            cases h
            exact hbase
          · rw [if_neg hnp] at h
            rcases rtOpt with _ | rt
            · cases h
              exact hbase
            · rw [hname] at h
              cases h
              exact hbase
    · rw [if_neg hcnt] at h
      cases h

theorem thisParamStep_of_ok (known : List Nat) (f : FunctionDeclInfo)
    (hok : (match f.method with
      | some m =>
        !m.isInstance
        || isOkB (convertType known m.thisType (f.lifetimes.map FunctionLifetimes.thisLifetimes)
             false)
      | none => true) = true) :
    ∃ ps, thisParamStep known f = some ([], ps, true) := by
  unfold thisParamStep
  rcases hm : f.method with _ | m <;> rw [hm] at hok <;> dsimp only at hok ⊢
  · exact ⟨[], rfl⟩
  · by_cases hi : m.isInstance
    · rw [if_pos hi]
      rw [hi] at hok
      simp only [Bool.not_true, Bool.false_or] at hok
      rcases hc : convertType known m.thisType (f.lifetimes.map FunctionLifetimes.thisLifetimes)
          false with p | msg | _
      · exact ⟨[⟨p, "__this"⟩], rfl⟩
      · rw [hc] at hok
        exact Bool.noConfusion hok
      · rw [hc] at hok
        exact Bool.noConfusion hok
    · rw [if_neg hi]
      exact ⟨[], rfl⟩

theorem paramsStep_of_ok (known : List Nat) (lf : Option FunctionLifetimes) (qn : String) :
    ∀ (ps : List ParamInfo) (i : Nat), paramsAllConvertible known lf ps i = true →
    ∃ qs, paramsStep known lf qn ps i = some ([], qs, true) := by
  intro ps
  induction ps with
  | nil =>
    intro i _
    exact ⟨[], rfl⟩
  | cons p rest ih =>
    intro i hok
    unfold paramsAllConvertible at hok
    simp only [Bool.and_eq_true] at hok
    obtain ⟨⟨hc, hbv⟩, hrest⟩ := hok
    obtain ⟨qs, hq⟩ := ih (i + 1) hrest
    unfold paramsStep
    rcases hcv : convertType known p.type (paramLifetimesAt lf i)
        ccNullableDefault with t | msg | _
    · rw [hq]
      dsimp only [Option.map]
      refine ⟨⟨t, paramIdentifier p.name i⟩ :: qs, ?_⟩
      rw [if_pos hbv]
      simp [hbv]
    · rw [hcv] at hc
      simp [isOkB] at hc
    · rw [hcv] at hc
      simp [isOkB] at hc

theorem returnConvStep_of_ok (known : List Nat) (f : FunctionDeclInfo)
    (hok : isOkB (convertType known f.returnType
      (f.lifetimes.map FunctionLifetimes.returnLifetimes) ccNullableDefault) = true) :
    ∃ rt, returnConvStep known f = some ([], some rt) := by
  unfold returnConvStep
  rcases hc : convertType known f.returnType (f.lifetimes.map FunctionLifetimes.returnLifetimes)
      ccNullableDefault with t | msg | _
  · exact ⟨t, rfl⟩
  · rw [hc] at hok
    simp [isOkB] at hok
  · rw [hc] at hok
    simp [isOkB] at hok

theorem conversionsAllOk_parts (known : List Nat) (f : FunctionDeclInfo)
    (hok : conversionsAllOk known f = true) :
    (match f.method with
      | some m =>
        !m.isInstance
        || isOkB (convertType known m.thisType (f.lifetimes.map FunctionLifetimes.thisLifetimes)
             false)
      | none => true) = true
    ∧ lifetimesCountOk f = true
    ∧ paramsAllConvertible known f.lifetimes f.params 0 = true
    ∧ byValuePassOk f.returnType = true
    ∧ isOkB (convertType known f.returnType (f.lifetimes.map FunctionLifetimes.returnLifetimes)
        ccNullableDefault) = true := by
  unfold conversionsAllOk at hok
  simp only [Bool.and_eq_true] at hok
  exact ⟨hok.1.1.1.1, hok.1.1.1.2, hok.1.1.2, hok.1.2, hok.2⟩

theorem functionDeclItems_ok_nonpublic (known : List Nat) (f : FunctionDeclInfo)
    (m : MethodInfo) (hm : f.method = some m) (ha : m.access ≠ AccessSpec.pub)
    (hok : conversionsAllOk known f = true) :
    functionDeclItems known f = some [] := by
  obtain ⟨hthis, hcnt, hparams, hbv, hret⟩ := conversionsAllOk_parts known f hok
  obtain ⟨ps0, h0⟩ := thisParamStep_of_ok known f hthis
  obtain ⟨ps1, h1⟩ := paramsStep_of_ok known f.lifetimes f.qualifiedName f.params 0 hparams
  obtain ⟨rt, h3⟩ := returnConvStep_of_ok known f hret
  unfold functionDeclItems
  rw [h0]
  dsimp only
  rw [if_pos hcnt, h1]
  dsimp only
  rw [h3]
  dsimp only
  rw [if_pos (by rw [hm]; simpa using ha)]
  unfold returnRecordCheck
  rw [if_pos hbv]
  simp

theorem functionDeclItems_ok_noname (known : List Nat) (f : FunctionDeclInfo)
    (hname : getTranslatedName f.nameKind = none) (hok : conversionsAllOk known f = true) :
    functionDeclItems known f = some [] := by
  obtain ⟨hthis, hcnt, hparams, hbv, hret⟩ := conversionsAllOk_parts known f hok
  obtain ⟨ps0, h0⟩ := thisParamStep_of_ok known f hthis
  obtain ⟨ps1, h1⟩ := paramsStep_of_ok known f.lifetimes f.qualifiedName f.params 0 hparams
  obtain ⟨rt, h3⟩ := returnConvStep_of_ok known f hret
  unfold functionDeclItems
  rw [h0]
  dsimp only
  rw [if_pos hcnt, h1]
  dsimp only
  rw [h3]
  dsimp only
  by_cases hnp : (match f.method with
      | some m => m.access != AccessSpec.pub
      | none => false) = true
  · rw [if_pos hnp]
    unfold returnRecordCheck
    rw [if_pos hbv]
    simp
  · rw [if_neg hnp, hname]
    unfold returnRecordCheck
    rw [if_pos hbv]
    simp

theorem visitFunctionDecl_of_empty (s : VState) (f : FunctionDeclInfo)
    (h : functionDeclItems s.known f = some []) : visitFunctionDecl s f = some s := by
  unfold visitFunctionDecl
  by_cases h1 : f.fromCurrentTarget
  · rw [h1]
    simp only [Bool.not_true, Bool.false_eq_true, if_false]
    by_cases h2 : f.isDeleted
    · rw [if_pos h2]
    · rw [if_neg h2, h]
      dsimp only [Option.map]
      rw [appendBucket_nil_batch]
  · simp only [Bool.not_eq_true] at h1
    rw [h1]
    simp

/-- Claim C7 (amended): a member function whose declared access is not
public never yields a Func item — every item its visit registers is an
UnsupportedItem — and when additionally every parameter and return
conversion succeeds and every by-value record passes in registers, the
visit registers no item at all and leaves the state unchanged.
Untranslatable parameter or return types of a non-public method do,
however, still register UnsupportedItems, because the access check runs
after the type conversions. -/
theorem c7_nonpublic_method_policy :
    (∀ (known : List Nat) (f : FunctionDeclInfo) (m : MethodInfo) (its : List Item),
      f.method = some m → m.access ≠ AccessSpec.pub → functionDeclItems known f = some its →
      ∀ it ∈ its, it.isUnsupportedItem = true)
    ∧ (∀ (s : VState) (f : FunctionDeclInfo) (m : MethodInfo),
      f.method = some m → m.access ≠ AccessSpec.pub → conversionsAllOk s.known f = true →
      visitFunctionDecl s f = some s) := by
  constructor
  · intro known f m its hm ha h
    exact functionDeclItems_nonpublic known f m its hm ha h
  · intro s f m hm ha hok
    exact visitFunctionDecl_of_empty s f (functionDeclItems_ok_nonpublic s.known f m hm ha hok)

theorem c7_nonpublic_method_policy_witness :
    (∀ it ∈ ([Item.unsupported "C::m"
        ("Parameter type " ++ sq ++ "X" ++ sq ++ " is not supported") none] : List Item),
      it.isUnsupportedItem = true)
    ∧ visitFunctionDecl initialVState privateOkMethodFixture = some initialVState :=
  ⟨c7_nonpublic_method_policy.1 [] privateMethodFixture
      ⟨.priv, false, voidTypeFixture, .unqualified, false, false, 9⟩ _ (by rfl) (by decide)
      (by rfl),
    c7_nonpublic_method_policy.2 initialVState privateOkMethodFixture
      ⟨.priv, false, voidTypeFixture, .unqualified, false, false, 9⟩ (by rfl) (by decide)
      (by rfl)⟩

theorem c7_counterexample :
    (visitFunctionDecl initialVState privateMethodFixture).map
      (fun s2 => (bucketOf s2.seenDecls 2).countP (fun it => it.isUnsupportedItem))
      = some 1 := by rfl

/-- Claim C9 (amended): a function whose declaration name kind is
neither an ordinary identifier nor a constructor nor a destructor never
yields a Func item, because name translation returns no value; and for
a non-deleted free function or public member function, when every
parameter and return conversion succeeds and every by-value record
passes in registers, its visit registers no item at all.  When a
by-value record parameter or return type fails the pass-in-registers
check, an UnsupportedItem is still registered even though every type
translates. -/
theorem c9_untranslatable_name_policy :
    (∀ (known : List Nat) (f : FunctionDeclInfo) (its : List Item),
      getTranslatedName f.nameKind = none → functionDeclItems known f = some its →
      ∀ it ∈ its, it.isFuncItem = false)
    ∧ (∀ (s : VState) (f : FunctionDeclInfo), f.nameKind = NameKind.otherKind →
      (f.method = none ∨ ∃ m, f.method = some m ∧ m.access = AccessSpec.pub) →
      conversionsAllOk s.known f = true → visitFunctionDecl s f = some s) := by
  constructor
  · intro known f its hname h it hit
    have hu := functionDeclItems_name_none known f its hname h it hit
    cases it <;> simp [Item.isFuncItem] <;> simp [Item.isUnsupportedItem] at hu
  · intro s f hname _ hok
    refine visitFunctionDecl_of_empty s f (functionDeclItems_ok_noname s.known f ?_ hok)
    rw [hname]
    rfl

theorem c9_untranslatable_name_policy_witness :
    (∀ it ∈ ([Item.unsupported "operator+"
        ("Non-trivial_abi type " ++ sq ++ "Nontrivial" ++ sq
          ++ " is not supported by value as a parameter") none] : List Item),
      it.isFuncItem = false)
    ∧ visitFunctionDecl knownFiveState operatorOkFixture = some knownFiveState :=
  ⟨c9_untranslatable_name_policy.1 knownFiveState.known operatorByValueFixture _ (by rfl)
      (by rfl),
    c9_untranslatable_name_policy.2 knownFiveState operatorOkFixture (by rfl)
      (Or.inl (by rfl)) (by rfl)⟩

theorem c9_counterexample :
    isOkB (convertType knownFiveState.known
      (CType.tagType false "Nontrivial" 5 (some "Nontrivial") true false) none
      ccNullableDefault) = true
    ∧ isOkB (convertType knownFiveState.known operatorByValueFixture.returnType none
      ccNullableDefault) = true
    ∧ (visitFunctionDecl knownFiveState operatorByValueFixture).map
        (fun s2 => (bucketOf s2.seenDecls 3).countP (fun it => it.isUnsupportedItem))
      = some 1 :=
  ⟨rfl, rfl, rfl⟩
